import Mathlib

/-!
Shallow embedding of the DrawNGuess room/turn state machine.

The definitions below are translated from the server sources:
  - server/handlers/gameHandler.ts (turn state machine, submissions, auto-fill)
  - server/handlers (room handlers: join, disconnect grace removal, kick, get-room)
  - server/utils/sanitize.ts (room visibility filter)
  - server/state (RoomManager, TurnTimerManager, disconnectionTimers)
  - shared/types.ts (data model)

JavaScript specifics that matter are modelled explicitly:
  - Array.prototype.indexOf returns -1 when the element is absent (jsIndexOf);
  - `find` followed by in-place mutation of the found element is modelled by
    updateFirst (replace the first element satisfying the predicate);
  - Date.now() is modelled by an explicit `now : Nat` argument;
  - optional / undefined fields are modelled by Option.
-/

set_option autoImplicit false

namespace DrawNGuess

/-- Page type tags from shared/types.ts. -/
inductive PageType where
  | word
  | draw
  | guess
  | skipTag
  deriving DecidableEq, Repr

/-- Action type for a turn, returned by getCurrentAction. -/
inductive TurnAction where
  | draw
  | guess
  | skipRound
  deriving DecidableEq, Repr

/-- Lifecycle status of a game. -/
inductive Status where
  | LOBBY
  | PLAYING
  | REVEAL
  deriving DecidableEq, Repr

/-- Player, from shared/types.ts. -/
structure Player where
  id : String
  socketId : String
  name : String
  isReady : Bool
  isConnected : Bool
  isHost : Bool
  teamId : Option String := none
  deriving DecidableEq, Repr

/-- One immutable contribution appended to a Book, from shared/types.ts.
The `disconnected` field is optional in the source; absent is `none`. -/
structure Page where
  type : PageType
  playerId : String
  playerName : String
  content : String
  timestamp : Nat
  disconnected : Option Bool := none
  deriving DecidableEq, Repr

/-- A sketchbook passed between players, from shared/types.ts. -/
structure Book where
  id : String
  ownerName : String
  secretWord : String
  pages : List Page
  currentHolderId : String
  deriving DecidableEq, Repr

/-- Team, from shared/types.ts. -/
structure Team where
  id : String
  name : String
  deriving DecidableEq, Repr

/-- The per-game settings snapshot stored in GameState. -/
structure GameSettings where
  difficulties : List String
  drawTimeLimit : Nat
  guessTimeLimit : Nat
  deriving DecidableEq, Repr

/-- Core game state, from shared/types.ts. -/
structure GameState where
  status : Status
  turnNumber : Nat
  books : List Book
  submittedPlayerIds : List String
  settings : GameSettings
  turnStartTime : Option Nat
  deriving DecidableEq, Repr

/-- The room settings blob: the shape actually used at runtime
(difficulties plus optional time limits, see UpdateSettingsSchema). -/
structure RoomSettings where
  difficulties : List String
  drawTimeLimit : Option Nat := none
  guessTimeLimit : Option Nat := none
  deriving DecidableEq, Repr

/-- A game room, from shared/types.ts. -/
structure Room where
  id : String
  players : List Player
  teams : List Team
  settings : RoomSettings
  gameState : GameState
  deriving DecidableEq, Repr

/-- JavaScript Array.prototype.indexOf: the index of the first occurrence,
or -1 when the element is absent. -/
def jsIndexOf (l : List String) (x : String) : Int :=
  if x ∈ l then (l.indexOf x : Int) else -1

/-- Replace the first element satisfying `p` by its image under `f`.
This models the JavaScript idiom of `find` followed by in-place mutation. -/
def updateFirst {α : Type} (p : α → Bool) (f : α → α) : List α → List α
  | [] => []
  | x :: xs => if p x then f x :: xs else x :: updateFirst p f xs

/-- getCurrentAction from gameHandler.ts: determines the action type for the
current turn from the turn number and the player count. -/
def getCurrentAction (turnNumber playerCount : Nat) : TurnAction :=
  let isOdd : Bool := playerCount % 2 != 0
  if isOdd && turnNumber == 0 then .skipRound
  else
    let effectiveTurn := if isOdd then turnNumber - 1 else turnNumber
    if effectiveTurn % 2 == 0 then .draw else .guess

/-- The holder a book is rotated to: `playerIds[(playerIds.indexOf(h) + 1) % playerIds.length]`.
With a stale holder, indexOf gives -1, so the book lands on the player at index 0. -/
def rotateTarget (playerIds : List String) (h : String) : String :=
  let currentIndex := jsIndexOf playerIds h
  let nextIndex := ((currentIndex + 1) % (playerIds.length : Int)).toNat
  playerIds.getD nextIndex ""

/-- rotateBooks from gameHandler.ts: pass every book to the next player in
the current player order. -/
def rotateBooks (room : Room) : Room :=
  let playerIds := room.players.map Player.id
  { room with gameState := { room.gameState with
      books := room.gameState.books.map fun book =>
        { book with currentHolderId := rotateTarget playerIds book.currentHolderId } } }

/-- startNewTurn from gameHandler.ts, state part only: clears the submitted
set, records the turn start time, and rotates books on every turn after
turn 0. Timer arming is modelled separately (SrvState below). -/
def startNewTurn (room : Room) (now : Nat) : Room :=
  let room := { room with gameState := { room.gameState with
      submittedPlayerIds := [], turnStartTime := some now } }
  if room.gameState.turnNumber > 0 then rotateBooks room else room

/-- The page literal synthesized by autoFillForPlayer: draw or guess type
according to the action, empty content (the source computes the previous
page content but leaves the synthesized page blank), and the disconnected
flag it was called with. -/
def autoPage (player : Player) (action : TurnAction) (disconnected : Bool) (now : Nat) : Page :=
  { type := if action = .draw then .draw else .guess
    playerId := player.id
    playerName := player.name
    content := ""
    timestamp := now
    disconnected := some disconnected }

/-- autoFillForPlayer from gameHandler.ts: synthesize a page for a player who
did not submit. Skip rounds add no page and only credit the player as
submitted. -/
def autoFillForPlayer (room : Room) (playerId : String) (disconnected : Bool) (now : Nat) : Room :=
  match room.players.find? (fun p => p.id == playerId) with
  | none => room
  | some player =>
    match room.gameState.books.find? (fun b => b.currentHolderId == playerId) with
    | none => room
    | some _book =>
      let action := getCurrentAction room.gameState.turnNumber room.players.length
      if action = .skipRound then
        if room.gameState.submittedPlayerIds.contains playerId then room
        else { room with gameState := { room.gameState with
            submittedPlayerIds := room.gameState.submittedPlayerIds ++ [playerId] } }
      else
        let autoFilledPage : Page := autoPage player action disconnected now
        let books := updateFirst (fun b => b.currentHolderId == playerId)
          (fun b => { b with pages := b.pages ++ [autoFilledPage] }) room.gameState.books
        let submitted :=
          if room.gameState.submittedPlayerIds.contains playerId then
            room.gameState.submittedPlayerIds
          else room.gameState.submittedPlayerIds ++ [playerId]
        { room with gameState := { room.gameState with
            books := books, submittedPlayerIds := submitted } }

/-- endGame from gameHandler.ts: transition to the reveal phase. -/
def endGame (room : Room) : Room :=
  { room with gameState := { room.gameState with status := Status.REVEAL } }

/-- The auto-fill loop at the head of advanceTurn: for every player not in
the snapshot of the submitted set, synthesize a page, with disconnected set
exactly when the player connection is down. -/
def autoFillPhase (room : Room) (now : Nat) : Room :=
  let submittedIds := room.gameState.submittedPlayerIds
  room.players.foldl
    (fun r player =>
      if submittedIds.contains player.id then r
      else autoFillForPlayer r player.id (!player.isConnected) now)
    room

/-- advanceTurn from gameHandler.ts, state part: auto-fill for players who
did not submit, increment the turn number, then either end the game or start
a new turn. The clearTimer call is modelled in the SrvState wrapper. -/
def advanceTurn (room : Room) (now : Nat) : Room :=
  let r := autoFillPhase room now
  let r := { r with gameState := { r.gameState with turnNumber := r.gameState.turnNumber + 1 } }
  if r.gameState.turnNumber ≥ r.players.length then endGame r else startNewTurn r now

/-- The turn number increment line of advanceTurn, named so the two
branches of the advancement can be reasoned about separately. -/
def bumpTurn (r : Room) : Room :=
  { r with gameState := { r.gameState with turnNumber := r.gameState.turnNumber + 1 } }

/-- The submitted set reset and turn start stamp of startNewTurn, named so
the rotation branch can be reasoned about separately. -/
def resetTurnMeta (r : Room) (now : Nat) : Room :=
  { r with gameState := { r.gameState with
      submittedPlayerIds := [], turnStartTime := some now } }

/-- The completeness check used (inline) by the submit, skip-ready and
disconnect handlers: it compares the LENGTH of the submitted list with the
LENGTH of the player list. -/
def submittedCountCheck (room : Room) : Bool :=
  room.gameState.submittedPlayerIds.length == room.players.length

/-- Modelled from the spec: the completeness test the specification
describes, membership of every current player identity in the submitted set
(identity based, not count based). Stated for comparison with
submittedCountCheck, which is what the source actually evaluates. -/
def identityCompleteCheck (room : Room) : Bool :=
  room.players.all (fun p => room.gameState.submittedPlayerIds.contains p.id)

/-- START_GAME handler from gameHandler.ts, state part. The random words
returned by getRandomWords are passed in as `secretWords`. The requesting
socket must belong to the host and the room must have enough players
(APP_CONFIG.gameLimits.minPlayers = 2). Builds one book per player, seeded
with a word page, then starts the first turn. -/
def startGame (room : Room) (socketId : String) (secretWords : List String) (now : Nat) : Room :=
  match room.players.find? (fun p => p.socketId == socketId) with
  | none => room
  | some player =>
    if !player.isHost then room
    else if room.players.length < 2 then room
    else
      let difficulties := room.settings.difficulties
      let books := room.players.mapIdx fun index p =>
        let initialPage : Page :=
          { type := .word
            playerId := p.id
            playerName := "SECRET"
            content := secretWords.getD index ""
            timestamp := now }
        { id := p.id
          ownerName := p.name
          secretWord := secretWords.getD index ""
          pages := [initialPage]
          currentHolderId := p.id : Book }
      let room := { room with gameState := { room.gameState with
          status := Status.PLAYING
          turnNumber := 0
          submittedPlayerIds := []
          settings :=
            { difficulties := difficulties
              drawTimeLimit := 60000
              guessTimeLimit := 30000 }
          books := books } }
      startNewTurn room now

/-- SUBMIT_DRAWING handler from gameHandler.ts, up to (but excluding) the
completeness check: `none` models an early return on a failed precondition. -/
def submitDrawingCore (room : Room) (socketId : String) (drawingData : String) (now : Nat) :
    Option Room :=
  if room.gameState.status ≠ Status.PLAYING then none
  else
    match room.players.find? (fun p => p.socketId == socketId) with
    | none => none
    | some player =>
      if room.gameState.submittedPlayerIds.contains player.id then none
      else
        match room.gameState.books.find? (fun b => b.currentHolderId == player.id) with
        | none => none
        | some _book =>
          let drawPage : Page :=
            { type := .draw
              playerId := player.id
              playerName := player.name
              content := drawingData
              timestamp := now }
          let books := updateFirst (fun b => b.currentHolderId == player.id)
            (fun b => { b with pages := b.pages ++ [drawPage] }) room.gameState.books
          some { room with gameState := { room.gameState with
              books := books
              submittedPlayerIds := room.gameState.submittedPlayerIds ++ [player.id] } }

/-- SUBMIT_DRAWING handler from gameHandler.ts: on success, if the submitted
count now equals the player count, advance the turn immediately. -/
def submitDrawing (room : Room) (socketId : String) (drawingData : String) (now : Nat) : Room :=
  match submitDrawingCore room socketId drawingData now with
  | none => room
  | some r => if submittedCountCheck r then advanceTurn r now else r

/-- SUBMIT_GUESS handler from gameHandler.ts, up to (but excluding) the
completeness check. The guess text is trimmed. -/
def submitGuessCore (room : Room) (socketId : String) (guessText : String) (now : Nat) :
    Option Room :=
  if room.gameState.status ≠ Status.PLAYING then none
  else
    match room.players.find? (fun p => p.socketId == socketId) with
    | none => none
    | some player =>
      if room.gameState.submittedPlayerIds.contains player.id then none
      else
        match room.gameState.books.find? (fun b => b.currentHolderId == player.id) with
        | none => none
        | some _book =>
          let guessPage : Page :=
            { type := .guess
              playerId := player.id
              playerName := player.name
              content := guessText.trim
              timestamp := now }
          let books := updateFirst (fun b => b.currentHolderId == player.id)
            (fun b => { b with pages := b.pages ++ [guessPage] }) room.gameState.books
          some { room with gameState := { room.gameState with
              books := books
              submittedPlayerIds := room.gameState.submittedPlayerIds ++ [player.id] } }

/-- SUBMIT_GUESS handler from gameHandler.ts. -/
def submitGuess (room : Room) (socketId : String) (guessText : String) (now : Nat) : Room :=
  match submitGuessCore room socketId guessText now with
  | none => room
  | some r => if submittedCountCheck r then advanceTurn r now else r

/-- UNSUBMIT handler from gameHandler.ts: if the requesting identity is in
the submitted list, remove it (splice at its first index) and pop the last
page of the book the player holds, but only when that page was authored by
the same identity. -/
def unsubmit (room : Room) (socketId : String) : Room :=
  if room.gameState.status ≠ Status.PLAYING then room
  else
    match room.players.find? (fun p => p.socketId == socketId) with
    | none => room
    | some player =>
      if room.gameState.submittedPlayerIds.contains player.id then
        let submitted := room.gameState.submittedPlayerIds.erase player.id
        let books := updateFirst (fun b => b.currentHolderId == player.id)
          (fun b =>
            match b.pages.getLast? with
            | some lastPage =>
              if lastPage.playerId == player.id then { b with pages := b.pages.dropLast } else b
            | none => b)
          room.gameState.books
        { room with gameState := { room.gameState with
            books := books, submittedPlayerIds := submitted } }
      else room

/-- SUBMIT_SKIP_READY handler from gameHandler.ts: only valid during a skip
round; marks the player as submitted without adding a page, then runs the
completeness check. `none` from the core models an early return. -/
def submitSkipReadyCore (room : Room) (socketId : String) : Option Room :=
  if room.gameState.status ≠ Status.PLAYING then none
  else
    match room.players.find? (fun p => p.socketId == socketId) with
    | none => none
    | some player =>
      let action := getCurrentAction room.gameState.turnNumber room.players.length
      if action ≠ .skipRound then none
      else if room.gameState.submittedPlayerIds.contains player.id then none
      else
        some { room with gameState := { room.gameState with
            submittedPlayerIds := room.gameState.submittedPlayerIds ++ [player.id] } }

/-- SUBMIT_SKIP_READY handler from gameHandler.ts. -/
def submitSkipReady (room : Room) (socketId : String) (now : Nat) : Room :=
  match submitSkipReadyCore room socketId with
  | none => room
  | some r => if submittedCountCheck r then advanceTurn r now else r

/-- The body of the 30 second disconnection grace timer armed by the
DISCONNECT handler in gameHandler.ts: if the player is still disconnected
and has not submitted, auto-fill with disconnected := true and re-run the
completeness check. -/
def disconnectGraceFire (room : Room) (playerId : String) (now : Nat) : Room :=
  match room.players.find? (fun p => p.id == playerId) with
  | none => room
  | some currentPlayer =>
    if currentPlayer.isConnected then room
    else if room.gameState.submittedPlayerIds.contains playerId then room
    else
      let r := autoFillForPlayer room playerId true now
      if submittedCountCheck r then advanceTurn r now else r

/-- The immediate part of the DISCONNECTING handler in the room handlers
file: mark the player owning the socket as disconnected. -/
def disconnectingMark (room : Room) (socketId : String) : Room :=
  { room with players := room.players.map fun p =>
      if p.socketId == socketId then { p with isConnected := false } else p }

/-- The body of the 30 second grace timer armed by the DISCONNECTING handler
in the room handlers file: if the player is still disconnected, remove them
from the player list; delete the room when it empties (`none`); promote the
first remaining player when the host left. Books are not touched. -/
def disconnectGraceRemoval (room : Room) (playerId : String) : Option Room :=
  match room.players.find? (fun p => p.id == playerId) with
  | none => some room
  | some p =>
    if p.isConnected then some room
    else
      let remaining := room.players.filter (fun pl => pl.id != p.id)
      if remaining.length = 0 then none
      else
        let remaining :=
          if p.isHost then
            match remaining with
            | [] => []
            | h :: t => { h with isHost := true } :: t
          else remaining
        some { room with players := remaining }

/-- KICK_PLAYER handler from the room handlers file: the host removes a
target player (never themselves) from the player list. -/
def kickPlayer (room : Room) (socketId : String) (playerId : String) : Room :=
  match room.players.find? (fun p => p.socketId == socketId) with
  | none => room
  | some requester =>
    if !requester.isHost then room
    else
      match room.players.find? (fun p => p.id == playerId) with
      | none => room
      | some target =>
        if target.id ≠ requester.id then
          { room with players := room.players.filter (fun p => p.id != playerId) }
        else room

/-- GET_ROOM handler from the room handlers file: looks the room up and
passes it to the callback completely unsanitized; the requesting socket is
never consulted. -/
def getRoomResponse (rooms : List (String × Room)) (_requesterSocketId : String)
    (roomId : String) : Option Room :=
  match rooms.find? (fun e => e.fst == roomId) with
  | some e => some e.snd
  | none => none

/-! ### The room visibility filter (server/utils/sanitize.ts) -/

/-- sanitizePlayer: field by field copy. -/
def sanitizePlayer (player : Player) : Player :=
  { id := player.id
    socketId := player.socketId
    name := player.name
    isReady := player.isReady
    isConnected := player.isConnected
    isHost := player.isHost
    teamId := player.teamId }

/-- sanitizeTeam: field by field copy. -/
def sanitizeTeam (team : Team) : Team :=
  { id := team.id, name := team.name }

/-- sanitizePage: field by field copy. -/
def sanitizePage (page : Page) : Page :=
  { type := page.type
    playerId := page.playerId
    playerName := page.playerName
    content := page.content
    timestamp := page.timestamp
    disconnected := page.disconnected }

/-- sanitizeBook: field by field copy, pages mapped through sanitizePage. -/
def sanitizeBook (book : Book) : Book :=
  { id := book.id
    ownerName := book.ownerName
    secretWord := book.secretWord
    currentHolderId := book.currentHolderId
    pages := book.pages.map sanitizePage }

/-- The value produced by `JSON.parse(JSON.stringify(room.settings))`: the
object tree is rebuilt node by node, so the value is copied field by field. -/
def settingsDeepCopy (s : RoomSettings) : RoomSettings :=
  { difficulties := s.difficulties.map id
    drawTimeLimit := s.drawTimeLimit
    guessTimeLimit := s.guessTimeLimit }

/-- sanitizeRoom from sanitize.ts: a clean copy of the room; the settings
blob is deep copied via the JSON round trip, the submitted list is copied
with the spread operator, the nested game settings with an object spread. -/
def sanitizeRoom (room : Room) : Room :=
  { id := room.id
    players := room.players.map sanitizePlayer
    teams := room.teams.map sanitizeTeam
    settings := settingsDeepCopy room.settings
    gameState :=
      { status := room.gameState.status
        turnNumber := room.gameState.turnNumber
        books := room.gameState.books.map sanitizeBook
        submittedPlayerIds := room.gameState.submittedPlayerIds.map id
        settings :=
          { difficulties := room.gameState.settings.difficulties
            drawTimeLimit := room.gameState.settings.drawTimeLimit
            guessTimeLimit := room.gameState.settings.guessTimeLimit }
        turnStartTime := room.gameState.turnStartTime } }

/-- sanitizeRoomForPlayer from sanitize.ts: during PLAYING the view keeps
only the book currently held by the recipient identity (or no book at all);
otherwise the sanitized room is returned whole. -/
def sanitizeRoomForPlayer (room : Room) (playerId : String) : Room :=
  let sanitized := sanitizeRoom room
  if sanitized.gameState.status = Status.PLAYING then
    let heldBook := sanitized.gameState.books.find? (fun b => b.currentHolderId == playerId)
    { sanitized with gameState := { sanitized.gameState with
        books := match heldBook with | some b => [b] | none => [] } }
  else sanitized

/-! ### Object identity model for the settings deep copy

JavaScript object references matter for one clause of the visibility filter
contract: the filtered view must not share its settings object with the
live room. A heap of settings objects is modelled as a list; a reference is
an index into it; allocation appends. `JSON.parse(JSON.stringify(x))`
allocates a fresh object whose value equals the one at the given
reference. -/

/-- A heap of settings objects; a reference is an index into the heap. -/
abbrev SettingsHeap : Type := List RoomSettings

/-- Allocate a fresh settings object: its reference is the current heap
length, which differs from every existing reference. -/
def heapAlloc (h : SettingsHeap) (v : RoomSettings) : Nat × SettingsHeap :=
  (List.length h, h ++ [v])

/-- The JSON round trip at the reference level: read the object at `ref`,
allocate a fresh object holding an equal value. -/
def jsonCloneSettings (h : SettingsHeap) (ref : Nat) : Nat × SettingsHeap :=
  heapAlloc h (List.getD h ref { difficulties := [] })

/-! ### Turn timer and the grace-delayed advancement (TurnTimerManager plus
the startNewTurn timer callback) -/

/-- Server state around one room: the room itself, whether the turn timer
registry holds a pending timer for it, and whether a grace-delayed
advancement callback (scheduled when the turn timer fired) is pending.
The raw setTimeout scheduled inside the timer callback is NOT registered in
the timer registry, so clearTimer cannot cancel it. -/
structure SrvState where
  room : Room
  timerArmed : Bool
  gracePending : Bool
  deriving DecidableEq, Repr

/-- advanceTurn including its timer registry effects: clearTimer on entry;
when the game continues, startNewTurn arms a fresh timer. -/
def advanceTurnS (s : SrvState) (now : Nat) : SrvState :=
  let room := advanceTurn s.room now
  { room := room
    timerArmed := room.gameState.status = Status.PLAYING
    gracePending := s.gracePending }

/-- The turn timer fires: the registry removes the handle and the callback
schedules the grace-delayed advancement via a raw setTimeout. -/
def timerFire (s : SrvState) : SrvState :=
  if s.timerArmed then { s with timerArmed := false, gracePending := true } else s

/-- The guard inside the grace-delayed callback of startNewTurn. In the
source it reads `currentRoom.gameState.turnNumber === room.gameState.turnNumber`,
where `currentRoom` is the registry lookup at fire time and `room` is the
variable captured by the closure at turn start. The registry stores live
objects, so as long as the room has not been deleted both names denote the
same object, and the guard compares the current turn number with itself. -/
def graceGuard (currentRoom : Room) : Bool :=
  currentRoom.gameState.turnNumber == currentRoom.gameState.turnNumber

/-- The grace-delayed advancement callback runs: if the room still exists
(always, here) and the guard passes, advance the turn. -/
def graceFire (s : SrvState) (now : Nat) : SrvState :=
  if s.gracePending then
    let s := { s with gracePending := false }
    if graceGuard s.room then advanceTurnS s now else s
  else s

/-- SUBMIT_DRAWING at the server state level: the advancement triggered by a
completed submitted set goes through the timer clearing wrapper. -/
def submitDrawingS (s : SrvState) (socketId : String) (drawingData : String) (now : Nat) :
    SrvState :=
  match submitDrawingCore s.room socketId drawingData now with
  | none => s
  | some r =>
    if submittedCountCheck r then advanceTurnS { s with room := r } now
    else { s with room := r }

/-- The book holder invariant of the specification: the multiset of book
holders coincides with the multiset of current player identities, i.e.
every holder is a current player, no two books share a holder, and every
player holds exactly one book. -/
def holderPermutation (room : Room) : Prop :=
  (room.gameState.books.map Book.currentHolderId).Perm (room.players.map Player.id)

/-- Modelled from the spec: the action type characterization of section 4.1.
For an odd player count, turn 0 is the skip round and a later turn t is
type A (draw) when t - 1 is even, type B (guess) when t - 1 is odd. For an
even player count there is no skip round and turn t is type A when t is
even, type B when t is odd. Stated for comparison with getCurrentAction. -/
def specActionOfTurn (t n : Nat) : TurnAction :=
  if n % 2 = 1 then
    if t = 0 then .skipRound
    else if (t - 1) % 2 = 0 then .draw else .guess
  else
    if t % 2 = 0 then .draw else .guess

/-- The page count every book is expected to hold at the start of turn k
of an n player game: the seed page plus one page per content turn played so
far (for odd n, turn 0 is the skip round and contributes none). -/
def expectedPages (n k : Nat) : Nat :=
  if n % 2 = 0 then k + 1 else max k 1

/-- Mid turn invariant of a conforming play: on turn k of a game whose
player list is ps, with the players `done` having submitted so far (in
order), the room is playing, the submitted list is exactly the identities
of `done`, the book holders are the player identities rotated k places,
and each book carries the expected page count plus one page exactly when
this is a content turn and its holder has already submitted. -/
structure MidInv (ps : List Player) (k : Nat) (done : List Player) (room : Room) : Prop where
  players_eq : room.players = ps
  nodup_ids : (ps.map Player.id).Nodup
  nodup_socks : (ps.map Player.socketId).Nodup
  status_eq : room.gameState.status = Status.PLAYING
  turn_eq : room.gameState.turnNumber = k
  turn_lt : k < ps.length
  submitted_eq : room.gameState.submittedPlayerIds = done.map Player.id
  holders_eq : room.gameState.books.map Book.currentHolderId = (ps.map Player.id).rotate k
  pages_eq : ∀ b ∈ room.gameState.books, b.pages.length = expectedPages ps.length k +
    (if getCurrentAction k ps.length ≠ TurnAction.skipRound ∧
        b.currentHolderId ∈ done.map Player.id then 1 else 0)

/-- Scenario driver: one player performs the action prescribed for the
current turn, through the corresponding handler. -/
def submitTurnAction (d g : String) (now : Nat) (r : Room) (p : Player) : Room :=
  match getCurrentAction r.gameState.turnNumber r.players.length with
  | .skipRound => submitSkipReady r p.socketId now
  | .draw => submitDrawing r p.socketId d now
  | .guess => submitGuess r p.socketId g now

/-- Scenario driver: one full turn. The players in `subs` submit in order
(the last submission advances the turn when it completes the set); if the
turn did not advance through a full submitted set, the turn timer fires and
the grace callback advances it. -/
def resolveTurn (d g : String) (now : Nat) (r : Room) (subs : List Player) : Room :=
  let r2 := subs.foldl (fun acc p => submitTurnAction d g now acc p) r
  if r2.gameState.turnNumber == r.gameState.turnNumber then advanceTurn r2 now else r2

/-- Scenario driver: play out a sequence of turns. -/
def playTurns (d g : String) (now : Nat) : Room → List (List Player) → Room
  | r, [] => r
  | r, subs :: rest => playTurns d g now (resolveTurn d g now r subs) rest

/-! ### Concrete fixtures used by the counterexample and witness theorems -/

/-- Fixture: host Alice. -/
def pAlice : Player :=
  { id := "A", socketId := "sA", name := "Alice"
    isReady := true, isConnected := true, isHost := true }

/-- Fixture: Bob. -/
def pBob : Player :=
  { id := "B", socketId := "sB", name := "Bob"
    isReady := false, isConnected := true, isHost := false }

/-- Fixture: Cara. -/
def pCara : Player :=
  { id := "C", socketId := "sC", name := "Cara"
    isReady := false, isConnected := true, isHost := false }

/-- Fixture: the initial game state of a fresh room. -/
def lobbyGameState : GameState :=
  { status := .LOBBY, turnNumber := 0, books := [], submittedPlayerIds := []
    settings := { difficulties := ["easy"], drawTimeLimit := 60000, guessTimeLimit := 30000 }
    turnStartTime := none }

/-- Fixture: a two player lobby room. -/
def lobbyTwo : Room :=
  { id := "R2", players := [pAlice, pBob], teams := []
    settings := { difficulties := ["easy"] }, gameState := lobbyGameState }

/-- Fixture: a three player lobby room. -/
def lobbyThree : Room :=
  { id := "R3", players := [pAlice, pBob, pCara], teams := []
    settings := { difficulties := ["easy"] }, gameState := lobbyGameState }

/-- Fixture: the two player room right after the host started the game. -/
def gameTwo : Room := startGame lobbyTwo "sA" ["cat", "dog"] 0

/-- Fixture: the three player room right after the host started the game. -/
def gameThree : Room := startGame lobbyThree "sA" ["cat", "dog", "elk"] 0

/-- Fixture: the book owned and held by Alice at turn 0 of the two player
game. -/
def bookAliceTwo : Book :=
  { id := "A", ownerName := "Alice", secretWord := "cat"
    pages := [⟨.word, "A", "SECRET", "cat", 0, none⟩], currentHolderId := "A" }

/-- Fixture: the book owned and held by Bob at turn 0 of the two player
game. -/
def bookBobTwo : Book :=
  { id := "B", ownerName := "Bob", secretWord := "dog"
    pages := [⟨.word, "B", "SECRET", "dog", 0, none⟩], currentHolderId := "B" }

/-- Fixture: server state at the start of turn 0 of the two player game,
with the turn timer armed by startNewTurn. -/
def raceStart : SrvState := { room := gameTwo, timerArmed := true, gracePending := false }

/-- Fixture: the timer and submission race. Alice submits her drawing, the
turn timer fires (scheduling the grace-delayed advancement), Bob submits
the last drawing (which advances the turn and clears the timer registry),
and then the already scheduled grace callback runs. -/
def raceFinal : SrvState :=
  graceFire (submitDrawingS (timerFire (submitDrawingS raceStart "sA" "img" 10)) "sB" "img" 20) 30

/-- Fixture: the three player game after all three acknowledged the skip
round, at the start of turn 1 (a draw turn). -/
def turnOneThree : Room :=
  submitSkipReady (submitSkipReady (submitSkipReady gameThree "sA" 1) "sB" 1) "sC" 1

/-- Fixture: on turn 1 of the three player game, Alice and Cara have
submitted their drawings; Bob has not. -/
def twoSubmittedRoom : Room :=
  submitDrawing (submitDrawing turnOneThree "sA" "d1" 2) "sC" "d2" 3

/-- Fixture: the host kicks Cara right after twoSubmittedRoom. Two players
remain while the submitted list still holds the two entries A and C. -/
def kickedMidTurnRoom : Room := kickPlayer twoSubmittedRoom "sA" "C"

/-- Fixture: Bob, the only remaining player who has not submitted, submits
after the kick. -/
def afterBobRoom : Room := submitDrawing kickedMidTurnRoom "sB" "d3" 4

/-- Fixture: the aftermath of the removal of a disconnected player during
the two player game: Alice goes down and the grace timer removes her. -/
def removalResult : Option Room :=
  disconnectGraceRemoval (disconnectingMark gameTwo "sA") "A"

/-- Fixture: Alice acknowledges the skip round of the three player game. -/
def skipReadyRoom : Room := submitSkipReady gameThree "sA" 5

/-- Fixture: Alice un-submits right after her skip round acknowledgement. -/
def unsubmitAfterSkipRoom : Room := unsubmit skipReadyRoom "sA"

/-- Fixture driver: one full turn of the three player game in which every
player submits the action prescribed for the current turn; the last
submission triggers the advancement. -/
def allSubmitTurnThree (r : Room) (now : Nat) : Room :=
  match getCurrentAction r.gameState.turnNumber r.players.length with
  | .skipRound => submitSkipReady (submitSkipReady (submitSkipReady r "sA" now) "sB" now) "sC" now
  | .draw => submitDrawing (submitDrawing (submitDrawing r "sA" "d" now) "sB" "d" now) "sC" "d" now
  | .guess => submitGuess (submitGuess (submitGuess r "sA" "g" now) "sB" "g" now) "sC" "g" now

/-- Fixture: the three player game played to completion, every player
submitting on every turn. -/
def finishedThree : Room :=
  allSubmitTurnThree (allSubmitTurnThree (allSubmitTurnThree gameThree 1) 2) 3

/-! ### Basic lemmas about the embedded definitions -/

theorem sanitizePage_eq (p : Page) : sanitizePage p = p := rfl

theorem sanitizeBook_eq (b : Book) : sanitizeBook b = b := by
  unfold sanitizeBook
  have : b.pages.map sanitizePage = b.pages := by
    induction b.pages with
    | nil => rfl
    | cons x xs ih => simp [ih, sanitizePage_eq]
  rw [this]

theorem sanitizeRoom_status (room : Room) :
    (sanitizeRoom room).gameState.status = room.gameState.status := rfl

theorem sanitizeRoom_books (room : Room) :
    (sanitizeRoom room).gameState.books = room.gameState.books := by
  show room.gameState.books.map sanitizeBook = room.gameState.books
  induction room.gameState.books with
  | nil => rfl
  | cons x xs ih => simp [ih, sanitizeBook_eq]

theorem updateFirst_map_key {α β : Type} (p : α → Bool) (f : α → α) (key : α → β)
    (hf : ∀ x, key (f x) = key x) (l : List α) :
    (updateFirst p f l).map key = l.map key := by
  induction l with
  | nil => rfl
  | cons y ys ih =>
    by_cases h : p y
    · simp [updateFirst, h, hf]
    · simp [updateFirst, h, ih]

theorem updateFirst_eq_map_of_nodup {α : Type} (key : α → String) (k : String) (f : α → α) :
    ∀ (l : List α), (l.map key).Nodup →
      updateFirst (fun x => key x == k) f l = l.map (fun x => if key x == k then f x else x)
  | [], _ => rfl
  | y :: ys, hnd => by
    rw [List.map_cons] at hnd
    have hnd' := List.nodup_cons.mp hnd
    by_cases h : key y = k
    · have htail : ys.map (fun x => if key x = k then f x else x) = ys := by
        have hstep : ∀ x ∈ ys, (if key x = k then f x else x) = id x := by
          intro x hx
          have hxk : key x ≠ k := by
            intro hk
            exact hnd'.1 (h ▸ hk ▸ List.mem_map_of_mem key hx)
          simp [hxk]
        rw [List.map_congr_left hstep, List.map_id]
      have hb : (key y == k) = true := by simp [h]
      simp [updateFirst, hb, h, htail]
    · have hb : (key y == k) = false := by simp [h]
      simp only [updateFirst, hb, Bool.false_eq_true, if_false, List.map_cons]
      rw [updateFirst_eq_map_of_nodup key k f ys hnd'.2]

theorem find?_key_self {α : Type} (key : α → String) (x : α) :
    ∀ (l : List α), (l.map key).Nodup → x ∈ l →
      l.find? (fun y => key y == key x) = some x
  | [], _, hx => absurd hx (List.not_mem_nil x)
  | y :: ys, hnd, hx => by
    rw [List.map_cons] at hnd
    have hnd' := List.nodup_cons.mp hnd
    by_cases h : key y = key x
    · have hyx : y = x := by
        rcases List.mem_cons.mp hx with rfl | hmem
        · rfl
        · exact absurd (h ▸ List.mem_map_of_mem key hmem) hnd'.1
      subst hyx
      exact List.find?_cons_of_pos ys (by simp)
    · rw [List.find?_cons_of_neg ys (by simp [h])]
      rcases List.mem_cons.mp hx with rfl | hmem
      · exact absurd rfl h
      · exact find?_key_self key x ys hnd'.2 hmem

theorem find?_key_of_mem_map {α : Type} (key : α → String) (k : String) :
    ∀ (l : List α), k ∈ l.map key →
      ∃ x, l.find? (fun y => key y == k) = some x ∧ key x = k ∧ x ∈ l
  | [], hk => absurd hk (List.not_mem_nil k)
  | y :: ys, hk => by
    by_cases h : key y = k
    · exact ⟨y, List.find?_cons_of_pos ys (by simp [h]), h, List.mem_cons_self y ys⟩
    · rw [List.map_cons] at hk
      rcases List.mem_cons.mp hk with rfl | hmem
      · exact absurd rfl h
      · obtain ⟨x, hfind, hkey, hxmem⟩ := find?_key_of_mem_map key k ys hmem
        exact ⟨x, by rw [List.find?_cons_of_neg ys (by simp [h])]; exact hfind,
          hkey, List.mem_cons_of_mem y hxmem⟩

theorem rotateTarget_getElem (ids : List String) (hnd : ids.Nodup) (i : Nat)
    (hi : i < ids.length) (hj : (i + 1) % ids.length < ids.length) :
    rotateTarget ids ids[i] = ids[(i + 1) % ids.length] := by
  have hlen : 0 < ids.length := Nat.lt_of_le_of_lt (Nat.zero_le i) hi
  have hmem : ids[i] ∈ ids := List.getElem_mem hi
  unfold rotateTarget jsIndexOf
  rw [if_pos hmem, List.indexOf_getElem hnd i hi]
  have hcast : (((i : Int) + 1) % (ids.length : Int)).toNat = (i + 1) % ids.length := by
    have h1 : ((i : Int) + 1) = ((i + 1 : Nat) : Int) := by push_cast; ring
    rw [h1, ← Int.ofNat_emod]
    exact Int.toNat_natCast _
  simp only [hcast]
  exact List.getD_eq_getElem ids "" (Nat.mod_lt _ hlen)

theorem map_rotateTarget_eq_rotate (ids : List String) (hnd : ids.Nodup) :
    ids.map (rotateTarget ids) = ids.rotate 1 := by
  apply List.ext_getElem
  · simp
  · intro i h1 h2
    rw [List.getElem_map, rotateTarget_getElem ids hnd i (by simpa using h1)
        (Nat.mod_lt _ (Nat.lt_of_le_of_lt (Nat.zero_le i) (by simpa using h1))),
      List.getElem_rotate]

theorem map_rotateTarget_rotate (ids : List String) (hnd : ids.Nodup) (k : Nat) :
    (ids.rotate k).map (rotateTarget ids) = ids.rotate (k + 1) := by
  rw [List.map_rotate, map_rotateTarget_eq_rotate ids hnd, List.rotate_rotate,
    Nat.add_comm 1 k]

/-! ### Preservation lemmas: which fields each operation leaves unchanged -/

theorem map_holder_updateFirst_append (p : Book → Bool) (pg : Page) (books : List Book) :
    (updateFirst p (fun b => { b with pages := b.pages ++ [pg] }) books).map Book.currentHolderId
      = books.map Book.currentHolderId :=
  updateFirst_map_key p (fun b => { b with pages := b.pages ++ [pg] })
    Book.currentHolderId (fun b => rfl) books

theorem autoFillForPlayer_preserves (r : Room) (pid : String) (d : Bool) (now : Nat) :
    (autoFillForPlayer r pid d now).players = r.players ∧
    (autoFillForPlayer r pid d now).gameState.turnNumber = r.gameState.turnNumber ∧
    (autoFillForPlayer r pid d now).gameState.status = r.gameState.status ∧
    (autoFillForPlayer r pid d now).gameState.books.map Book.currentHolderId
      = r.gameState.books.map Book.currentHolderId := by
  refine ⟨?_, ?_, ?_, ?_⟩ <;>
  · unfold autoFillForPlayer
    dsimp only
    split
    · rfl
    split
    · rfl
    split
    · split <;> rfl
    · first
      | rfl
      | (dsimp only
         exact map_holder_updateFirst_append _ _ _)

theorem foldAutoFill_preserves (S : List String) (now : Nat) :
    ∀ (qs : List Player) (r : Room),
      ((qs.foldl (fun r player => if S.contains player.id then r
            else autoFillForPlayer r player.id (!player.isConnected) now) r).players
          = r.players) ∧
      ((qs.foldl (fun r player => if S.contains player.id then r
            else autoFillForPlayer r player.id (!player.isConnected) now) r).gameState.turnNumber
          = r.gameState.turnNumber) ∧
      ((qs.foldl (fun r player => if S.contains player.id then r
            else autoFillForPlayer r player.id (!player.isConnected) now) r).gameState.status
          = r.gameState.status) ∧
      ((qs.foldl (fun r player => if S.contains player.id then r
            else autoFillForPlayer r player.id (!player.isConnected) now) r).gameState.books.map
            Book.currentHolderId
          = r.gameState.books.map Book.currentHolderId)
  | [], r => ⟨rfl, rfl, rfl, rfl⟩
  | q :: qs, r => by
    rw [List.foldl_cons]
    try dsimp only
    by_cases hc : S.contains q.id = true
    · rw [if_pos hc]
      exact foldAutoFill_preserves S now qs r
    · rw [if_neg hc]
      have h1 := autoFillForPlayer_preserves r q.id (!q.isConnected) now
      have h2 := foldAutoFill_preserves S now qs (autoFillForPlayer r q.id (!q.isConnected) now)
      exact ⟨h2.1.trans h1.1, h2.2.1.trans h1.2.1, h2.2.2.1.trans h1.2.2.1,
        h2.2.2.2.trans h1.2.2.2⟩

theorem autoFillPhase_preserves (room : Room) (now : Nat) :
    (autoFillPhase room now).players = room.players ∧
    (autoFillPhase room now).gameState.turnNumber = room.gameState.turnNumber ∧
    (autoFillPhase room now).gameState.status = room.gameState.status ∧
    (autoFillPhase room now).gameState.books.map Book.currentHolderId
      = room.gameState.books.map Book.currentHolderId :=
  foldAutoFill_preserves room.gameState.submittedPlayerIds now room.players room

theorem rotateBooks_fields (room : Room) :
    (rotateBooks room).players = room.players ∧
    (rotateBooks room).gameState.turnNumber = room.gameState.turnNumber ∧
    (rotateBooks room).gameState.status = room.gameState.status ∧
    (rotateBooks room).gameState.submittedPlayerIds = room.gameState.submittedPlayerIds ∧
    (rotateBooks room).gameState.books.map Book.currentHolderId
      = (room.gameState.books.map Book.currentHolderId).map
          (rotateTarget (room.players.map Player.id)) := by
  refine ⟨rfl, rfl, rfl, rfl, ?_⟩
  show (room.gameState.books.map _).map Book.currentHolderId = _
  rw [List.map_map, List.map_map]
  rfl

theorem holderPermutation_rotateBooks (room : Room)
    (hnd : (room.players.map Player.id).Nodup) (hperm : holderPermutation room) :
    holderPermutation (rotateBooks room) := by
  unfold holderPermutation at *
  rw [(rotateBooks_fields room).2.2.2.2, show (rotateBooks room).players = room.players from rfl]
  exact (hperm.map _).trans
    (by rw [map_rotateTarget_eq_rotate _ hnd]; exact List.rotate_perm _ 1)

theorem startNewTurn_fields (room : Room) (now : Nat) :
    (startNewTurn room now).players = room.players ∧
    (startNewTurn room now).gameState.turnNumber = room.gameState.turnNumber ∧
    (startNewTurn room now).gameState.status = room.gameState.status ∧
    (startNewTurn room now).gameState.submittedPlayerIds = [] := by
  refine ⟨?_, ?_, ?_, ?_⟩ <;>
  · unfold startNewTurn
    dsimp only
    split <;> rfl

theorem holderPermutation_startNewTurn (room : Room) (now : Nat)
    (hnd : (room.players.map Player.id).Nodup) (hperm : holderPermutation room) :
    holderPermutation (startNewTurn room now) := by
  unfold startNewTurn
  dsimp only
  split
  · exact holderPermutation_rotateBooks _ hnd hperm
  · exact hperm

theorem holderPermutation_advanceTurn (room : Room) (now : Nat)
    (hnd : (room.players.map Player.id).Nodup) (hperm : holderPermutation room) :
    holderPermutation (advanceTurn room now) ∧ (advanceTurn room now).players = room.players := by
  have hp := autoFillPhase_preserves room now
  have hmid : holderPermutation { autoFillPhase room now with gameState :=
      { (autoFillPhase room now).gameState with
        turnNumber := (autoFillPhase room now).gameState.turnNumber + 1 } } := by
    show ((autoFillPhase room now).gameState.books.map Book.currentHolderId).Perm
      ((autoFillPhase room now).players.map Player.id)
    rw [hp.2.2.2, hp.1]
    exact hperm
  have hndmid : ((({ autoFillPhase room now with gameState :=
      { (autoFillPhase room now).gameState with
        turnNumber := (autoFillPhase room now).gameState.turnNumber + 1 } }) : Room).players.map
        Player.id).Nodup := by
    show ((autoFillPhase room now).players.map Player.id).Nodup
    rw [hp.1]
    exact hnd
  unfold advanceTurn
  dsimp only
  split
  · -- endGame branch
    constructor
    · show ((autoFillPhase room now).gameState.books.map Book.currentHolderId).Perm
        ((autoFillPhase room now).players.map Player.id)
      rw [hp.2.2.2, hp.1]
      exact hperm
    · show (autoFillPhase room now).players = room.players
      exact hp.1
  · constructor
    · exact holderPermutation_startNewTurn _ now hndmid hmid
    · exact ((startNewTurn_fields _ now).1).trans hp.1

theorem map_holder_updateFirst_pop (p : Book → Bool) (pid : String) (books : List Book) :
    (updateFirst p (fun b =>
        match b.pages.getLast? with
        | some lastPage =>
          if lastPage.playerId == pid then { b with pages := b.pages.dropLast } else b
        | none => b) books).map Book.currentHolderId
      = books.map Book.currentHolderId := by
  apply updateFirst_map_key
  intro b
  cases hl : b.pages.getLast? with
  | none => rfl
  | some lp =>
    dsimp only
    split <;> rfl

theorem submitDrawingCore_preserves (room : Room) (sid d : String) (now : Nat) (r' : Room)
    (h : submitDrawingCore room sid d now = some r') :
    r'.players = room.players ∧ r'.gameState.turnNumber = room.gameState.turnNumber ∧
    r'.gameState.status = room.gameState.status ∧
    r'.gameState.books.map Book.currentHolderId
      = room.gameState.books.map Book.currentHolderId := by
  unfold submitDrawingCore at h
  split at h
  · simp at h
  · split at h
    · simp at h
    · split at h
      · simp at h
      · split at h
        · simp at h
        · injection h with h2
          subst h2
          exact ⟨rfl, rfl, rfl, map_holder_updateFirst_append _ _ _⟩

theorem submitGuessCore_preserves (room : Room) (sid g : String) (now : Nat) (r' : Room)
    (h : submitGuessCore room sid g now = some r') :
    r'.players = room.players ∧ r'.gameState.turnNumber = room.gameState.turnNumber ∧
    r'.gameState.status = room.gameState.status ∧
    r'.gameState.books.map Book.currentHolderId
      = room.gameState.books.map Book.currentHolderId := by
  unfold submitGuessCore at h
  split at h
  · simp at h
  · split at h
    · simp at h
    · split at h
      · simp at h
      · split at h
        · simp at h
        · injection h with h2
          subst h2
          exact ⟨rfl, rfl, rfl, map_holder_updateFirst_append _ _ _⟩

theorem submitSkipReadyCore_preserves (room : Room) (sid : String) (r' : Room)
    (h : submitSkipReadyCore room sid = some r') :
    r'.players = room.players ∧ r'.gameState.turnNumber = room.gameState.turnNumber ∧
    r'.gameState.status = room.gameState.status ∧
    r'.gameState.books = room.gameState.books := by
  unfold submitSkipReadyCore at h
  split at h
  · simp at h
  · split at h
    · simp at h
    · dsimp only at h
      split at h
      · simp at h
      · split at h
        · simp at h
        · injection h with h2
          subst h2
          exact ⟨rfl, rfl, rfl, rfl⟩

theorem unsubmit_preserves (room : Room) (sid : String) :
    (unsubmit room sid).players = room.players ∧
    (unsubmit room sid).gameState.turnNumber = room.gameState.turnNumber ∧
    (unsubmit room sid).gameState.status = room.gameState.status ∧
    (unsubmit room sid).gameState.books.map Book.currentHolderId
      = room.gameState.books.map Book.currentHolderId := by
  refine ⟨?_, ?_, ?_, ?_⟩ <;>
  · unfold unsubmit
    dsimp only
    repeat' split
    all_goals first
      | rfl
      | (dsimp only
         exact map_holder_updateFirst_pop _ _ _)

theorem holderPermutation_submitDrawing (room : Room) (sid d : String) (now : Nat)
    (hnd : (room.players.map Player.id).Nodup) (hperm : holderPermutation room) :
    holderPermutation (submitDrawing room sid d now) ∧
    (submitDrawing room sid d now).players = room.players := by
  unfold submitDrawing
  cases hc : submitDrawingCore room sid d now with
  | none => exact ⟨hperm, rfl⟩
  | some r' =>
    have hf := submitDrawingCore_preserves room sid d now r' hc
    have hperm' : holderPermutation r' := by
      unfold holderPermutation
      rw [hf.2.2.2, hf.1]
      exact hperm
    have hnd' : (r'.players.map Player.id).Nodup := by rw [hf.1]; exact hnd
    dsimp only
    split
    · have hadv := holderPermutation_advanceTurn r' now hnd' hperm'
      exact ⟨hadv.1, hadv.2.trans hf.1⟩
    · exact ⟨hperm', hf.1⟩

theorem holderPermutation_submitGuess (room : Room) (sid g : String) (now : Nat)
    (hnd : (room.players.map Player.id).Nodup) (hperm : holderPermutation room) :
    holderPermutation (submitGuess room sid g now) ∧
    (submitGuess room sid g now).players = room.players := by
  unfold submitGuess
  cases hc : submitGuessCore room sid g now with
  | none => exact ⟨hperm, rfl⟩
  | some r' =>
    have hf := submitGuessCore_preserves room sid g now r' hc
    have hperm' : holderPermutation r' := by
      unfold holderPermutation
      rw [hf.2.2.2, hf.1]
      exact hperm
    have hnd' : (r'.players.map Player.id).Nodup := by rw [hf.1]; exact hnd
    dsimp only
    split
    · have hadv := holderPermutation_advanceTurn r' now hnd' hperm'
      exact ⟨hadv.1, hadv.2.trans hf.1⟩
    · exact ⟨hperm', hf.1⟩

theorem holderPermutation_submitSkipReady (room : Room) (sid : String) (now : Nat)
    (hnd : (room.players.map Player.id).Nodup) (hperm : holderPermutation room) :
    holderPermutation (submitSkipReady room sid now) ∧
    (submitSkipReady room sid now).players = room.players := by
  unfold submitSkipReady
  cases hc : submitSkipReadyCore room sid with
  | none => exact ⟨hperm, rfl⟩
  | some r' =>
    have hf := submitSkipReadyCore_preserves room sid r' hc
    have hperm' : holderPermutation r' := by
      unfold holderPermutation
      rw [hf.2.2.2, hf.1]
      exact hperm
    have hnd' : (r'.players.map Player.id).Nodup := by rw [hf.1]; exact hnd
    dsimp only
    split
    · have hadv := holderPermutation_advanceTurn r' now hnd' hperm'
      exact ⟨hadv.1, hadv.2.trans hf.1⟩
    · exact ⟨hperm', hf.1⟩

theorem holderPermutation_unsubmit (room : Room) (sid : String)
    (hperm : holderPermutation room) :
    holderPermutation (unsubmit room sid) ∧ (unsubmit room sid).players = room.players := by
  have hf := unsubmit_preserves room sid
  refine ⟨?_, hf.1⟩
  unfold holderPermutation
  rw [hf.2.2.2, hf.1]
  exact hperm

theorem mapIdx_map_key {α β γ : Type} (f : Nat → α → β) (g : β → γ) (k : α → γ)
    (hf : ∀ i x, g (f i x) = k x) (l : List α) :
    (l.mapIdx f).map g = l.map k := by
  apply List.ext_get
  · simp
  · intro i h1 h2
    rw [List.get_map, List.get_map, List.get_mapIdx l f i (by simpa using h2), hf]

theorem holderPermutation_startGame (room : Room) (sid : String) (words : List String)
    (now : Nat) (hperm : holderPermutation room) :
    holderPermutation (startGame room sid words now) ∧
    (startGame room sid words now).players = room.players := by
  unfold startGame
  dsimp only
  split
  · exact ⟨hperm, rfl⟩
  · split
    · exact ⟨hperm, rfl⟩
    · split
      · exact ⟨hperm, rfl⟩
      · constructor
        · unfold startNewTurn
          dsimp only
          split
          · next hgt => exact absurd hgt (by simp)
          · have hmap := mapIdx_map_key
              (fun index p =>
                ({ id := p.id
                   ownerName := p.name
                   secretWord := words.getD index ""
                   pages := [({ type := PageType.word
                                playerId := p.id
                                playerName := "SECRET"
                                content := words.getD index ""
                                timestamp := now } : Page)]
                   currentHolderId := p.id } : Book))
              Book.currentHolderId Player.id (fun i x => rfl) room.players
            unfold holderPermutation
            dsimp only
            rw [hmap]
        · exact (startNewTurn_fields _ now).1

theorem eq_of_key_nodup {α : Type} (key : α → String) (l : List α)
    (hnd : (l.map key).Nodup) (x y : α) (hx : x ∈ l) (hy : y ∈ l) (hk : key x = key y) :
    x = y := by
  have h1 := find?_key_self key x l hnd hx
  have h2 := find?_key_self key y l hnd hy
  rw [hk] at h1
  rw [h1] at h2
  exact Option.some.inj h2

theorem submitDrawingCore_success (room : Room) (sid d : String) (now : Nat) (player : Player)
    (hst : room.gameState.status = Status.PLAYING)
    (hfind : room.players.find? (fun p => p.socketId == sid) = some player)
    (hcont : room.gameState.submittedPlayerIds.contains player.id = false)
    (b : Book)
    (hbfind : room.gameState.books.find? (fun bk => bk.currentHolderId == player.id) = some b) :
    submitDrawingCore room sid d now = some { room with gameState := { room.gameState with
        books := updateFirst (fun bk => bk.currentHolderId == player.id)
          (fun bk => { bk with pages := bk.pages ++
            [(⟨.draw, player.id, player.name, d, now, none⟩ : Page)] })
          room.gameState.books,
        submittedPlayerIds := room.gameState.submittedPlayerIds ++ [player.id] } } := by
  unfold submitDrawingCore
  rw [if_neg (by simp [hst]), hfind]
  dsimp only
  rw [if_neg (by simpa using hcont), hbfind]

theorem submitGuessCore_success (room : Room) (sid g : String) (now : Nat) (player : Player)
    (hst : room.gameState.status = Status.PLAYING)
    (hfind : room.players.find? (fun p => p.socketId == sid) = some player)
    (hcont : room.gameState.submittedPlayerIds.contains player.id = false)
    (b : Book)
    (hbfind : room.gameState.books.find? (fun bk => bk.currentHolderId == player.id) = some b) :
    submitGuessCore room sid g now = some { room with gameState := { room.gameState with
        books := updateFirst (fun bk => bk.currentHolderId == player.id)
          (fun bk => { bk with pages := bk.pages ++
            [(⟨.guess, player.id, player.name, g.trim, now, none⟩ : Page)] })
          room.gameState.books,
        submittedPlayerIds := room.gameState.submittedPlayerIds ++ [player.id] } } := by
  unfold submitGuessCore
  rw [if_neg (by simp [hst]), hfind]
  dsimp only
  rw [if_neg (by simpa using hcont), hbfind]

theorem submitDrawingCore_none_status (room : Room) (sid d : String) (now : Nat)
    (hst : room.gameState.status ≠ Status.PLAYING) :
    submitDrawingCore room sid d now = none := by
  unfold submitDrawingCore
  rw [if_pos hst]

theorem submitGuessCore_none_status (room : Room) (sid g : String) (now : Nat)
    (hst : room.gameState.status ≠ Status.PLAYING) :
    submitGuessCore room sid g now = none := by
  unfold submitGuessCore
  rw [if_pos hst]

theorem submitDrawingCore_none_player (room : Room) (sid d : String) (now : Nat)
    (hfind : room.players.find? (fun p => p.socketId == sid) = none) :
    submitDrawingCore room sid d now = none := by
  unfold submitDrawingCore
  split
  · rfl
  · rw [hfind]

theorem submitGuessCore_none_player (room : Room) (sid g : String) (now : Nat)
    (hfind : room.players.find? (fun p => p.socketId == sid) = none) :
    submitGuessCore room sid g now = none := by
  unfold submitGuessCore
  split
  · rfl
  · rw [hfind]

theorem submitDrawingCore_none_submitted (room : Room) (sid d : String) (now : Nat)
    (player : Player)
    (hfind : room.players.find? (fun p => p.socketId == sid) = some player)
    (hcont : room.gameState.submittedPlayerIds.contains player.id = true) :
    submitDrawingCore room sid d now = none := by
  unfold submitDrawingCore
  split
  · rfl
  · rw [hfind]
    dsimp only
    rw [if_pos hcont]

theorem submitGuessCore_none_submitted (room : Room) (sid g : String) (now : Nat)
    (player : Player)
    (hfind : room.players.find? (fun p => p.socketId == sid) = some player)
    (hcont : room.gameState.submittedPlayerIds.contains player.id = true) :
    submitGuessCore room sid g now = none := by
  unfold submitGuessCore
  split
  · rfl
  · rw [hfind]
    dsimp only
    rw [if_pos hcont]

theorem submitDrawingCore_none_book (room : Room) (sid d : String) (now : Nat)
    (player : Player)
    (hfind : room.players.find? (fun p => p.socketId == sid) = some player)
    (hbfind : room.gameState.books.find? (fun bk => bk.currentHolderId == player.id) = none) :
    submitDrawingCore room sid d now = none := by
  unfold submitDrawingCore
  split
  · rfl
  · rw [hfind]
    dsimp only
    split
    · rfl
    · rw [hbfind]

theorem submitGuessCore_none_book (room : Room) (sid g : String) (now : Nat)
    (player : Player)
    (hfind : room.players.find? (fun p => p.socketId == sid) = some player)
    (hbfind : room.gameState.books.find? (fun bk => bk.currentHolderId == player.id) = none) :
    submitGuessCore room sid g now = none := by
  unfold submitGuessCore
  split
  · rfl
  · rw [hfind]
    dsimp only
    split
    · rfl
    · rw [hbfind]

theorem submitDrawing_eq_of_core_none (room : Room) (sid d : String) (now : Nat)
    (h : submitDrawingCore room sid d now = none) :
    submitDrawing room sid d now = room := by
  unfold submitDrawing
  rw [h]

theorem submitGuess_eq_of_core_none (room : Room) (sid g : String) (now : Nat)
    (h : submitGuessCore room sid g now = none) :
    submitGuess room sid g now = room := by
  unfold submitGuess
  rw [h]

theorem map_append_holders (room : Room) (player : Player) (pg : Page) :
    ((room.gameState.books.map (fun bk =>
        if bk.currentHolderId == player.id then { bk with pages := bk.pages ++ [pg] }
        else bk)).map Book.currentHolderId)
      = room.gameState.books.map Book.currentHolderId := by
  rw [List.map_map]
  exact List.map_congr_left (fun bk _ => by
    simp only [Function.comp_apply]
    split <;> rfl)

theorem unsubmit_append_roundtrip (room : Room) (sid : String) (player : Player) (pg : Page)
    (hst : room.gameState.status = Status.PLAYING)
    (hfind : room.players.find? (fun p => p.socketId == sid) = some player)
    (hmem : player.id ∉ room.gameState.submittedPlayerIds)
    (hbooknd : (room.gameState.books.map Book.currentHolderId).Nodup)
    (hpg : pg.playerId = player.id) :
    unsubmit { room with gameState := { room.gameState with
        books := updateFirst (fun bk => bk.currentHolderId == player.id)
          (fun bk => { bk with pages := bk.pages ++ [pg] }) room.gameState.books,
        submittedPlayerIds := room.gameState.submittedPlayerIds ++ [player.id] } } sid
      = room := by
  unfold unsubmit
  dsimp only
  rw [if_neg (by simp [hst]), hfind]
  dsimp only
  rw [if_pos (by simp)]
  have hY : (room.gameState.submittedPlayerIds ++ [player.id]).erase player.id
      = room.gameState.submittedPlayerIds := by
    rw [List.erase_append_right _ hmem]
    simp
  have happ := updateFirst_eq_map_of_nodup Book.currentHolderId player.id
    (fun bk => { bk with pages := bk.pages ++ [pg] }) room.gameState.books hbooknd
  have hnd2 : (((room.gameState.books.map (fun bk =>
      if bk.currentHolderId == player.id then { bk with pages := bk.pages ++ [pg] }
      else bk))).map Book.currentHolderId).Nodup := by
    rw [map_append_holders room player pg]
    exact hbooknd
  have hpop := updateFirst_eq_map_of_nodup Book.currentHolderId player.id
    (fun b => match b.pages.getLast? with
      | some lastPage =>
        if lastPage.playerId == player.id then { b with pages := b.pages.dropLast } else b
      | none => b)
    (room.gameState.books.map (fun bk =>
      if bk.currentHolderId == player.id then { bk with pages := bk.pages ++ [pg] }
      else bk)) hnd2
  have hX : updateFirst (fun b => b.currentHolderId == player.id)
      (fun b => match b.pages.getLast? with
        | some lastPage =>
          if lastPage.playerId == player.id then { b with pages := b.pages.dropLast } else b
        | none => b)
      (updateFirst (fun bk => bk.currentHolderId == player.id)
        (fun bk => { bk with pages := bk.pages ++ [pg] }) room.gameState.books)
      = room.gameState.books := by
    rw [happ, hpop, List.map_map]
    refine (List.map_congr_left ?_).trans (List.map_id room.gameState.books)
    intro bk _
    dsimp only [Function.comp]
    by_cases hh : (bk.currentHolderId == player.id) = true
    · rw [if_pos hh]
      have hlast : (bk.pages ++ [pg]).getLast? = some pg := List.getLast?_concat _
      rw [if_pos hh]
      simp only [hlast]
      rw [if_pos (by simp [hpg])]
      simp [List.dropLast_concat]
    · rw [if_neg hh]
      rw [if_neg hh]
      rfl
  rw [hX, hY]

theorem unsubmit_no_pop (room : Room) (sid : String) (player : Player)
    (hst : room.gameState.status = Status.PLAYING)
    (hfind : room.players.find? (fun p => p.socketId == sid) = some player)
    (hbooknd : (room.gameState.books.map Book.currentHolderId).Nodup)
    (hnopop : ∀ bk ∈ room.gameState.books, bk.currentHolderId = player.id →
      ∀ lp, bk.pages.getLast? = some lp → lp.playerId ≠ player.id) :
    (unsubmit { room with gameState := { room.gameState with
        submittedPlayerIds := room.gameState.submittedPlayerIds ++ [player.id] } } sid
      ).gameState.books = room.gameState.books := by
  unfold unsubmit
  dsimp only
  rw [if_neg (by simp [hst]), hfind]
  dsimp only
  rw [if_pos (by simp)]
  dsimp only
  rw [updateFirst_eq_map_of_nodup Book.currentHolderId player.id _ room.gameState.books hbooknd]
  refine (List.map_congr_left ?_).trans (List.map_id room.gameState.books)
  intro bk hbk
  by_cases hh : (bk.currentHolderId == player.id) = true
  · rw [if_pos hh]
    cases hl : bk.pages.getLast? with
    | none => rfl
    | some lp =>
      dsimp only
      rw [if_neg (by simp [hnopop bk hbk (by simpa using hh) lp hl])]
      rfl
  · rw [if_neg hh]
    rfl

theorem find?_map_key {α : Type} (key : α → String) (k : String) (f : α → α)
    (hf : ∀ x, key (f x) = key x) :
    ∀ (l : List α),
      (l.map f).find? (fun x => key x == k) = (l.find? (fun x => key x == k)).map f
  | [] => rfl
  | y :: ys => by
    by_cases h : (key y == k) = true
    · have h2 : (key (f y) == k) = true := by rw [hf]; exact h
      rw [List.map_cons]
      rw [show (f y :: ys.map f).find? (fun x => key x == k) = some (f y) from
        List.find?_cons_of_pos _ h2]
      rw [show (y :: ys).find? (fun x => key x == k) = some y from
        List.find?_cons_of_pos _ h]
      rfl
    · have h2 : ¬ (key (f y) == k) = true := by rw [hf]; exact h
      rw [List.map_cons]
      rw [show (f y :: ys.map f).find? (fun x => key x == k)
          = (ys.map f).find? (fun x => key x == k) from List.find?_cons_of_neg _ h2]
      rw [show (y :: ys).find? (fun x => key x == k) = ys.find? (fun x => key x == k) from
        List.find?_cons_of_neg _ h]
      exact find?_map_key key k f hf ys

theorem autoFillForPlayer_eq (r : Room) (q : Player) (d : Bool) (now : Nat)
    (hfindp : r.players.find? (fun p => p.id == q.id) = some q)
    (hbooknd : (r.gameState.books.map Book.currentHolderId).Nodup) :
    autoFillForPlayer r q.id d now =
      if (r.gameState.books.map Book.currentHolderId).contains q.id then
        { r with gameState := { r.gameState with
            books :=
              if getCurrentAction r.gameState.turnNumber r.players.length = .skipRound then
                r.gameState.books
              else
                r.gameState.books.map (fun bk =>
                  if bk.currentHolderId == q.id then
                    { bk with pages := bk.pages ++
                      [autoPage q (getCurrentAction r.gameState.turnNumber r.players.length) d now] }
                  else bk),
            submittedPlayerIds :=
              if r.gameState.submittedPlayerIds.contains q.id then
                r.gameState.submittedPlayerIds
              else r.gameState.submittedPlayerIds ++ [q.id] } }
      else r := by
  unfold autoFillForPlayer
  rw [hfindp]
  dsimp only
  cases hfb : r.gameState.books.find? (fun b => b.currentHolderId == q.id) with
  | none =>
    have hnc : q.id ∉ r.gameState.books.map Book.currentHolderId := by
      intro hq
      obtain ⟨bk, hbk, hbkid⟩ := List.mem_map.mp hq
      have hno := List.find?_eq_none.mp hfb bk hbk
      simp [hbkid] at hno
    have hcondF : ¬ (r.gameState.books.map Book.currentHolderId).contains q.id = true := by
      simpa using hnc
    rw [if_neg hcondF]
  | some bk =>
    have hbeq : bk.currentHolderId = q.id := by simpa using List.find?_some hfb
    have hmm : q.id ∈ r.gameState.books.map Book.currentHolderId := by
      rw [← hbeq]
      exact List.mem_map_of_mem Book.currentHolderId (List.mem_of_find?_eq_some hfb)
    have hcondT : (r.gameState.books.map Book.currentHolderId).contains q.id = true := by
      simpa using hmm
    rw [if_pos hcondT]
    by_cases ha : getCurrentAction r.gameState.turnNumber r.players.length = .skipRound
    · rw [if_pos ha, if_pos ha]
      by_cases hc : r.gameState.submittedPlayerIds.contains q.id = true
      · rw [if_pos hc, if_pos hc]
      · rw [if_neg hc, if_neg hc]
    · rw [if_neg ha, if_neg ha]
      rw [updateFirst_eq_map_of_nodup Book.currentHolderId q.id _ r.gameState.books hbooknd]

theorem autoFillForPlayer_submitted_mono (r : Room) (pid : String) (d : Bool) (now : Nat)
    (x : String) (hx : x ∈ r.gameState.submittedPlayerIds) :
    x ∈ (autoFillForPlayer r pid d now).gameState.submittedPlayerIds := by
  unfold autoFillForPlayer
  dsimp only
  repeat' split
  all_goals first
    | exact hx
    | exact List.mem_append_left _ hx

theorem autoFill_fold_submitted_mono (S : List String) (now : Nat) :
    ∀ (qs : List Player) (r : Room) (x : String), x ∈ r.gameState.submittedPlayerIds →
      x ∈ (qs.foldl (fun r player => if S.contains player.id then r
          else autoFillForPlayer r player.id (!player.isConnected) now) r
        ).gameState.submittedPlayerIds
  | [], _, _, hx => hx
  | q :: qs, r, x, hx => by
    rw [List.foldl_cons]
    try dsimp only
    by_cases hc : S.contains q.id = true
    · rw [if_pos hc]
      exact autoFill_fold_submitted_mono S now qs r x hx
    · rw [if_neg hc]
      exact autoFill_fold_submitted_mono S now qs _ x
        (autoFillForPlayer_submitted_mono r q.id (!q.isConnected) now x hx)

theorem autoFillForPlayer_books_skip (r : Room) (pid : String) (d : Bool) (now : Nat)
    (ha : getCurrentAction r.gameState.turnNumber r.players.length = .skipRound) :
    (autoFillForPlayer r pid d now).gameState.books = r.gameState.books := by
  unfold autoFillForPlayer
  dsimp only
  split
  · rfl
  split
  · rfl
  split
  · split <;> rfl
  · next h => exact absurd ha h

theorem autoFill_fold_books_skip (S : List String) (now : Nat) :
    ∀ (qs : List Player) (r : Room),
      getCurrentAction r.gameState.turnNumber r.players.length = .skipRound →
      (qs.foldl (fun r player => if S.contains player.id then r
          else autoFillForPlayer r player.id (!player.isConnected) now) r
        ).gameState.books = r.gameState.books
  | [], _, _ => rfl
  | q :: qs, r, ha => by
    rw [List.foldl_cons]
    try dsimp only
    by_cases hc : S.contains q.id = true
    · rw [if_pos hc]
      exact autoFill_fold_books_skip S now qs r ha
    · rw [if_neg hc]
      have hpres := autoFillForPlayer_preserves r q.id (!q.isConnected) now
      rw [autoFill_fold_books_skip S now qs _ (by rw [hpres.2.1, hpres.1]; exact ha)]
      exact autoFillForPlayer_books_skip r q.id (!q.isConnected) now ha

theorem autoFillForPlayer_credits (r : Room) (q : Player) (d : Bool) (now : Nat)
    (hfindp : r.players.find? (fun p => p.id == q.id) = some q)
    (hmem : q.id ∈ r.gameState.books.map Book.currentHolderId) :
    q.id ∈ (autoFillForPlayer r q.id d now).gameState.submittedPlayerIds := by
  unfold autoFillForPlayer
  rw [hfindp]
  dsimp only
  cases hfb : r.gameState.books.find? (fun b => b.currentHolderId == q.id) with
  | none =>
    obtain ⟨bk, hbk, hbkid⟩ := List.mem_map.mp hmem
    have hno := List.find?_eq_none.mp hfb bk hbk
    simp [hbkid] at hno
  | some bk =>
    split
    · next heq2 => exact absurd heq2 (by simp)
    · split
      · split
        · next hcc => simpa using hcc
        · exact List.mem_append_right _ (by simp)
      · try dsimp only
        split
        · next hcc => simpa using hcc
        · exact List.mem_append_right _ (by simp)

theorem autoFill_fold_credits (S : List String) (now : Nat) :
    ∀ (qs : List Player) (r : Room) (p : Player),
      (∀ q ∈ qs, r.players.find? (fun x => x.id == q.id) = some q) →
      p ∈ qs →
      S.contains p.id = false →
      p.id ∈ r.gameState.books.map Book.currentHolderId →
      p.id ∈ (qs.foldl (fun r player => if S.contains player.id then r
          else autoFillForPlayer r player.id (!player.isConnected) now) r
        ).gameState.submittedPlayerIds
  | [], _, p, _, hp, _, _ => absurd hp (List.not_mem_nil p)
  | q :: qs, r, p, hfind, hp, hS, hb => by
    rw [List.foldl_cons]
    try dsimp only
    rcases List.mem_cons.mp hp with rfl | hp'
    · rw [if_neg (by simpa using hS)]
      exact autoFill_fold_submitted_mono S now qs _ p.id
        (autoFillForPlayer_credits r p (!p.isConnected) now
          (hfind p (List.mem_cons_self _ _)) hb)
    · by_cases hc : S.contains q.id = true
      · rw [if_pos hc]
        exact autoFill_fold_credits S now qs r p
          (fun q' hq' => hfind q' (List.mem_cons_of_mem _ hq')) hp' hS hb
      · rw [if_neg hc]
        have hpres := autoFillForPlayer_preserves r q.id (!q.isConnected) now
        exact autoFill_fold_credits S now qs _ p
          (fun q' hq' => by rw [hpres.1]; exact hfind q' (List.mem_cons_of_mem _ hq'))
          hp' hS (by rw [hpres.2.2.2]; exact hb)

theorem autoFill_fold_untouched (S : List String) (now : Nat) (h : String) :
    ∀ (qs : List Player) (r : Room),
      (∀ q ∈ qs, q.id = h → S.contains q.id = true) →
      (∀ q ∈ qs, r.players.find? (fun x => x.id == q.id) = some q) →
      (r.gameState.books.map Book.currentHolderId).Nodup →
      (qs.foldl (fun r player => if S.contains player.id then r
          else autoFillForPlayer r player.id (!player.isConnected) now) r
        ).gameState.books.find? (fun bk => bk.currentHolderId == h)
        = r.gameState.books.find? (fun bk => bk.currentHolderId == h)
  | [], _, _, _, _ => rfl
  | q :: qs, r, hnot, hfind, hnd => by
    rw [List.foldl_cons]
    try dsimp only
    by_cases hc : S.contains q.id = true
    · rw [if_pos hc]
      exact autoFill_fold_untouched S now h qs r
        (fun q' hq' => hnot q' (List.mem_cons_of_mem _ hq'))
        (fun q' hq' => hfind q' (List.mem_cons_of_mem _ hq')) hnd
    · have hne : h ≠ q.id := by
        intro hh
        exact hc (hnot q (List.mem_cons_self _ _) hh.symm)
      rw [if_neg hc]
      have hpres := autoFillForPlayer_preserves r q.id (!q.isConnected) now
      have heq := autoFillForPlayer_eq r q (!q.isConnected) now
        (hfind q (List.mem_cons_self _ _)) hnd
      have hstep : (autoFillForPlayer r q.id (!q.isConnected) now).gameState.books.find?
          (fun bk => bk.currentHolderId == h)
          = r.gameState.books.find? (fun bk => bk.currentHolderId == h) := by
        rw [heq]
        by_cases hcq : (r.gameState.books.map Book.currentHolderId).contains q.id = true
        · rw [if_pos hcq]
          try dsimp only
          by_cases ha2 : getCurrentAction r.gameState.turnNumber r.players.length = .skipRound
          · rw [if_pos ha2]
          · rw [if_neg ha2]
            rw [find?_map_key Book.currentHolderId h _
              (fun bk => by split <;> rfl) r.gameState.books]
            cases hfb : r.gameState.books.find? (fun bk => bk.currentHolderId == h) with
            | none => rfl
            | some bk =>
              have hbkh : bk.currentHolderId = h := by simpa using List.find?_some hfb
              simp only [Option.map_some']
              rw [if_neg (by rw [hbkh]; simp only [beq_iff_eq]; exact hne)]
        · rw [if_neg hcq]
      rw [autoFill_fold_untouched S now h qs _
        (fun q' hq' => hnot q' (List.mem_cons_of_mem _ hq'))
        (fun q' hq' => by rw [hpres.1]; exact hfind q' (List.mem_cons_of_mem _ hq'))
        (by rw [hpres.2.2.2]; exact hnd)]
      exact hstep

theorem autoFill_fold_appends (S : List String) (now : Nat) :
    ∀ (qs : List Player) (r : Room) (p : Player) (b : Book),
      (∀ q ∈ qs, r.players.find? (fun x => x.id == q.id) = some q) →
      (r.gameState.books.map Book.currentHolderId).Nodup →
      (qs.map Player.id).Nodup →
      getCurrentAction r.gameState.turnNumber r.players.length ≠ .skipRound →
      r.gameState.books.find? (fun bk => bk.currentHolderId == p.id) = some b →
      p ∈ qs →
      S.contains p.id = false →
      r.gameState.submittedPlayerIds.contains p.id = false →
      (qs.foldl (fun r player => if S.contains player.id then r
          else autoFillForPlayer r player.id (!player.isConnected) now) r
        ).gameState.books.find? (fun bk => bk.currentHolderId == p.id)
        = some { b with pages := b.pages ++
            [autoPage p (getCurrentAction r.gameState.turnNumber r.players.length)
              (!p.isConnected) now] }
  | [], _, p, _, _, _, _, _, _, hp, _, _ => absurd hp (List.not_mem_nil p)
  | q :: qs, r, p, b, hfind, hnd, hqnd, ha, hbfind, hp, hS, hsub => by
    rw [List.foldl_cons]
    try dsimp only
    rw [List.map_cons] at hqnd
    have hqnd' := List.nodup_cons.mp hqnd
    have hb2 : b.currentHolderId = p.id := by simpa using List.find?_some hbfind
    rcases List.mem_cons.mp hp with rfl | hp'
    · rw [if_neg (by simpa using hS)]
      have heq := autoFillForPlayer_eq r p (!p.isConnected) now
        (hfind p (List.mem_cons_self _ _)) hnd
      have hpmem : p.id ∈ r.gameState.books.map Book.currentHolderId := by
        rw [← hb2]
        exact List.mem_map_of_mem _ (List.mem_of_find?_eq_some hbfind)
      have hpres := autoFillForPlayer_preserves r p.id (!p.isConnected) now
      have hstep : (autoFillForPlayer r p.id (!p.isConnected) now).gameState.books.find?
          (fun bk => bk.currentHolderId == p.id)
          = some { b with pages := b.pages ++
              [autoPage p (getCurrentAction r.gameState.turnNumber r.players.length)
                (!p.isConnected) now] } := by
        rw [heq, if_pos (by simpa using hpmem)]
        rw [if_neg ha]
        rw [find?_map_key Book.currentHolderId p.id _
          (fun bk => by split <;> rfl) r.gameState.books, hbfind]
        simp only [Option.map_some']
        rw [if_pos (by simp [hb2])]
      rw [autoFill_fold_untouched S now p.id qs _
        (fun q' hq' hqe => absurd (hqe ▸ List.mem_map_of_mem Player.id hq') hqnd'.1)
        (fun q' hq' => by rw [hpres.1]; exact hfind q' (List.mem_cons_of_mem _ hq'))
        (by rw [hpres.2.2.2]; exact hnd)]
      exact hstep
    · have hqp : q.id ≠ p.id := by
        intro hh
        exact hqnd'.1 (hh ▸ List.mem_map_of_mem Player.id hp')
      by_cases hc : S.contains q.id = true
      · rw [if_pos hc]
        exact autoFill_fold_appends S now qs r p b
          (fun q' hq' => hfind q' (List.mem_cons_of_mem _ hq'))
          hnd hqnd'.2 ha hbfind hp' hS hsub
      · rw [if_neg hc]
        have heq := autoFillForPlayer_eq r q (!q.isConnected) now
          (hfind q (List.mem_cons_self _ _)) hnd
        have hpres := autoFillForPlayer_preserves r q.id (!q.isConnected) now
        have hbfind' : (autoFillForPlayer r q.id (!q.isConnected) now).gameState.books.find?
            (fun bk => bk.currentHolderId == p.id) = some b := by
          rw [heq]
          by_cases hcq : (r.gameState.books.map Book.currentHolderId).contains q.id = true
          · rw [if_pos hcq]
            try dsimp only
            rw [if_neg ha]
            rw [find?_map_key Book.currentHolderId p.id _
              (fun bk => by split <;> rfl) r.gameState.books, hbfind]
            simp only [Option.map_some']
            rw [if_neg (by rw [hb2]; simp only [beq_iff_eq]; exact fun hh => hqp hh.symm)]
          · rw [if_neg hcq]
            exact hbfind
        have hsub' : (autoFillForPlayer r q.id
            (!q.isConnected) now).gameState.submittedPlayerIds.contains p.id = false := by
          rw [heq]
          split
          · dsimp only
            split
            · exact hsub
            · simp only [List.contains_eq_any_beq, List.any_append, List.any_cons,
                List.any_nil, Bool.or_false]
              simp only [List.contains_eq_any_beq] at hsub
              rw [hsub]
              simp [hqp]
              exact fun hh => hqp hh.symm
          · exact hsub
        have hrec := autoFill_fold_appends S now qs _ p b
          (fun q' hq' => by rw [hpres.1]; exact hfind q' (List.mem_cons_of_mem _ hq'))
          (by rw [hpres.2.2.2]; exact hnd)
          hqnd'.2
          (by rw [hpres.2.1, hpres.1]; exact ha)
          hbfind' hp' hS hsub'
        rw [hrec, hpres.2.1, hpres.1]

/-! ### Full game bookkeeping: the turn invariant and the page count -/

theorem submitSkipReadyCore_success (room : Room) (sid : String) (player : Player)
    (hst : room.gameState.status = Status.PLAYING)
    (hfind : room.players.find? (fun p => p.socketId == sid) = some player)
    (ha : getCurrentAction room.gameState.turnNumber room.players.length = .skipRound)
    (hcont : room.gameState.submittedPlayerIds.contains player.id = false) :
    submitSkipReadyCore room sid = some { room with gameState := { room.gameState with
        submittedPlayerIds := room.gameState.submittedPlayerIds ++ [player.id] } } := by
  unfold submitSkipReadyCore
  rw [if_neg (by simp [hst]), hfind]
  dsimp only
  rw [if_neg (by simp [ha]), if_neg (by simpa using hcont)]

theorem expectedPages_succ (n k : Nat) :
    expectedPages n (k + 1) = expectedPages n k +
      (if getCurrentAction k n ≠ TurnAction.skipRound then 1 else 0) := by
  unfold expectedPages getCurrentAction
  rcases Nat.mod_two_eq_zero_or_one n with h | h
  · by_cases he : k % 2 = 0 <;> simp [h, he]
  · rcases Nat.eq_zero_or_pos k with rfl | hk
    · simp [h]
    · have hk0 : (k == 0) = false := by simp [Nat.pos_iff_ne_zero.mp hk]
      by_cases he : (k - 1) % 2 = 0 <;> simp [h, hk0, he] <;> omega

theorem advanceTurn_turn (room : Room) (now : Nat) :
    (advanceTurn room now).gameState.turnNumber = room.gameState.turnNumber + 1 := by
  have hp := autoFillPhase_preserves room now
  unfold advanceTurn
  dsimp only
  split
  · show (autoFillPhase room now).gameState.turnNumber + 1 = _
    rw [hp.2.1]
  · rw [(startNewTurn_fields _ now).2.1]
    show (autoFillPhase room now).gameState.turnNumber + 1 = _
    rw [hp.2.1]

theorem midinv_holders_nodup (ps : List Player) (k : Nat) (done : List Player) (room : Room)
    (h : MidInv ps k done room) :
    (room.gameState.books.map Book.currentHolderId).Nodup := by
  rw [h.holders_eq]
  exact ((List.rotate_perm (ps.map Player.id) k).symm).nodup h.nodup_ids

theorem midinv_autofill_books (now : Nat) (ps : List Player) (k : Nat) (done : List Player)
    (room : Room) (h : MidInv ps k done room) :
    ∀ b ∈ (autoFillPhase room now).gameState.books,
      b.pages.length = expectedPages ps.length k +
        (if getCurrentAction k ps.length ≠ TurnAction.skipRound then 1 else 0) := by
  intro b hb
  have hbooknd := midinv_holders_nodup ps k done room h
  have hpres := autoFillPhase_preserves room now
  have hnd2 : ((autoFillPhase room now).gameState.books.map Book.currentHolderId).Nodup := by
    rw [hpres.2.2.2]
    exact hbooknd
  have hfindb : (autoFillPhase room now).gameState.books.find?
      (fun bk => bk.currentHolderId == b.currentHolderId) = some b :=
    find?_key_self Book.currentHolderId b _ hnd2 hb
  have hfind : ∀ q ∈ room.players, room.players.find? (fun x => x.id == q.id) = some q := by
    intro q hq
    rw [h.players_eq] at hq ⊢
    exact find?_key_self Player.id q ps h.nodup_ids hq
  have hmemh : b.currentHolderId ∈ room.gameState.books.map Book.currentHolderId := by
    rw [← hpres.2.2.2]
    exact List.mem_map_of_mem Book.currentHolderId hb
  obtain ⟨b0, hb0find, hb0key, hb0mem⟩ :=
    find?_key_of_mem_map Book.currentHolderId b.currentHolderId room.gameState.books hmemh
  have haR : getCurrentAction room.gameState.turnNumber room.players.length
      = getCurrentAction k ps.length := by rw [h.turn_eq, h.players_eq]
  by_cases ha : getCurrentAction k ps.length = TurnAction.skipRound
  · have hbooks : (autoFillPhase room now).gameState.books = room.gameState.books :=
      autoFill_fold_books_skip room.gameState.submittedPlayerIds now room.players
        room (by rw [haR]; exact ha)
    rw [hbooks] at hb
    rw [h.pages_eq b hb, if_neg (fun hcon => hcon.1 ha), if_neg (fun hcon => hcon ha)]
  · by_cases hdone : b.currentHolderId ∈ done.map Player.id
    · have huntouched : (autoFillPhase room now).gameState.books.find?
          (fun bk => bk.currentHolderId == b.currentHolderId)
          = room.gameState.books.find? (fun bk => bk.currentHolderId == b.currentHolderId) :=
        autoFill_fold_untouched room.gameState.submittedPlayerIds now b.currentHolderId
          room.players room
          (fun q _ hqe => by rw [h.submitted_eq, hqe]; simpa using hdone)
          hfind hbooknd
      have hbb0 : b = b0 := Option.some.inj (hfindb.symm.trans (huntouched.trans hb0find))
      have hpg := h.pages_eq b0 hb0mem
      rw [if_pos ⟨ha, by rw [hb0key]; exact hdone⟩] at hpg
      rw [hbb0, hpg, if_pos ha]
    · have hmemrot : b.currentHolderId ∈ (ps.map Player.id).rotate k := by
        rw [← h.holders_eq]
        exact hmemh
      obtain ⟨p, hpmem, hpid⟩ :=
        List.mem_map.mp ((List.rotate_perm (ps.map Player.id) k).mem_iff.mp hmemrot)
      have hS : room.gameState.submittedPlayerIds.contains p.id = false := by
        rw [h.submitted_eq, hpid]
        simpa using hdone
      have happends := autoFill_fold_appends room.gameState.submittedPlayerIds now room.players
        room p b0 hfind hbooknd (by rw [h.players_eq]; exact h.nodup_ids)
        (by rw [haR]; exact ha)
        (by rw [hpid]; exact hb0find) (by rw [h.players_eq]; exact hpmem) hS hS
      rw [hpid] at happends
      have hbeq : b = { b0 with pages := b0.pages ++
          [autoPage p (getCurrentAction room.gameState.turnNumber room.players.length)
            (!p.isConnected) now] } :=
        Option.some.inj (hfindb.symm.trans happends)
      have hpgb0 := h.pages_eq b0 hb0mem
      rw [if_neg (fun hcon => hdone (by rw [← hb0key]; exact hcon.2))] at hpgb0
      rw [hbeq]
      show (b0.pages ++ [_]).length = _
      rw [List.length_append, hpgb0, if_pos ha]
      simp

theorem bumpTurn_fields (r : Room) :
    (bumpTurn r).players = r.players ∧
    (bumpTurn r).gameState.turnNumber = r.gameState.turnNumber + 1 ∧
    (bumpTurn r).gameState.status = r.gameState.status ∧
    (bumpTurn r).gameState.submittedPlayerIds = r.gameState.submittedPlayerIds ∧
    (bumpTurn r).gameState.books = r.gameState.books :=
  ⟨rfl, rfl, rfl, rfl, rfl⟩

theorem resetTurnMeta_fields (r : Room) (now : Nat) :
    (resetTurnMeta r now).players = r.players ∧
    (resetTurnMeta r now).gameState.turnNumber = r.gameState.turnNumber ∧
    (resetTurnMeta r now).gameState.status = r.gameState.status ∧
    (resetTurnMeta r now).gameState.submittedPlayerIds = ([] : List String) ∧
    (resetTurnMeta r now).gameState.books = r.gameState.books :=
  ⟨rfl, rfl, rfl, rfl, rfl⟩

theorem endGame_fields (r : Room) :
    (endGame r).players = r.players ∧
    (endGame r).gameState.status = Status.REVEAL ∧
    (endGame r).gameState.turnNumber = r.gameState.turnNumber ∧
    (endGame r).gameState.books = r.gameState.books :=
  ⟨rfl, rfl, rfl, rfl⟩

theorem advanceTurn_eq (room : Room) (now : Nat) :
    advanceTurn room now =
      if (bumpTurn (autoFillPhase room now)).gameState.turnNumber
          ≥ (bumpTurn (autoFillPhase room now)).players.length
      then endGame (bumpTurn (autoFillPhase room now))
      else startNewTurn (bumpTurn (autoFillPhase room now)) now := rfl

theorem startNewTurn_eq (room : Room) (now : Nat) :
    startNewTurn room now =
      if (resetTurnMeta room now).gameState.turnNumber > 0
      then rotateBooks (resetTurnMeta room now)
      else resetTurnMeta room now := rfl

theorem rotateBooks_pages (r : Room) :
    ∀ b ∈ (rotateBooks r).gameState.books,
      ∃ b0 ∈ r.gameState.books, b.pages = b0.pages := by
  intro b hb
  rw [show (rotateBooks r).gameState.books = r.gameState.books.map (fun book =>
      { book with currentHolderId :=
          rotateTarget (r.players.map Player.id) book.currentHolderId }) from rfl] at hb
  obtain ⟨b0, hb0, hbe⟩ := List.mem_map.mp hb
  exact ⟨b0, hb0, by rw [← hbe]⟩

theorem midinv_advanceTurn (now : Nat) (ps : List Player) (k : Nat) (done : List Player)
    (room : Room) (h : MidInv ps k done room) :
    (k + 1 < ps.length → MidInv ps (k + 1) [] (advanceTurn room now)) ∧
    (k + 1 = ps.length →
      (advanceTurn room now).players = ps ∧
      (advanceTurn room now).gameState.status = Status.REVEAL ∧
      (advanceTurn room now).gameState.turnNumber = ps.length ∧
      ∀ b ∈ (advanceTurn room now).gameState.books,
        b.pages.length = expectedPages ps.length ps.length) := by
  have hA := autoFillPhase_preserves room now
  have hBturn : (bumpTurn (autoFillPhase room now)).gameState.turnNumber = k + 1 := by
    rw [(bumpTurn_fields _).2.1, hA.2.1, h.turn_eq]
  have hBplayers : (bumpTurn (autoFillPhase room now)).players = ps := by
    rw [(bumpTurn_fields _).1, hA.1, h.players_eq]
  constructor
  · intro hlt
    rw [advanceTurn_eq, if_neg (show ¬ (bumpTurn (autoFillPhase room now)).gameState.turnNumber
        ≥ (bumpTurn (autoFillPhase room now)).players.length from by
      rw [hBturn, hBplayers]; exact Nat.not_le.mpr hlt)]
    rw [startNewTurn_eq, if_pos (show (resetTurnMeta (bumpTurn (autoFillPhase room now))
        now).gameState.turnNumber > 0 from by
      rw [(resetTurnMeta_fields _ _).2.1, hBturn]; exact Nat.succ_pos k)]
    have hCfields := resetTurnMeta_fields (bumpTurn (autoFillPhase room now)) now
    have hRfields := rotateBooks_fields (resetTurnMeta (bumpTurn (autoFillPhase room now)) now)
    refine ⟨?_, h.nodup_ids, h.nodup_socks, ?_, ?_, hlt, ?_, ?_, ?_⟩
    · rw [hRfields.1, hCfields.1, hBplayers]
    · rw [hRfields.2.2.1, hCfields.2.2.1, (bumpTurn_fields _).2.2.1, hA.2.2.1, h.status_eq]
    · rw [hRfields.2.1, hCfields.2.1, hBturn]
    · rw [hRfields.2.2.2.1, hCfields.2.2.2.1]
      rfl
    · rw [hRfields.2.2.2.2]
      have hCbooks : (resetTurnMeta (bumpTurn (autoFillPhase room now))
          now).gameState.books.map Book.currentHolderId = (ps.map Player.id).rotate k := by
        rw [hCfields.2.2.2.2, (bumpTurn_fields _).2.2.2.2, hA.2.2.2, h.holders_eq]
      have hCplayers : (resetTurnMeta (bumpTurn (autoFillPhase room now))
          now).players.map Player.id = ps.map Player.id := by
        rw [hCfields.1, hBplayers]
      rw [hCbooks, hCplayers, map_rotateTarget_rotate _ h.nodup_ids k]
    · intro b hb
      obtain ⟨b0, hb0, hpg⟩ :=
        rotateBooks_pages (resetTurnMeta (bumpTurn (autoFillPhase room now)) now) b hb
      rw [hCfields.2.2.2.2, (bumpTurn_fields _).2.2.2.2] at hb0
      rw [hpg, midinv_autofill_books now ps k done room h b0 hb0, ← expectedPages_succ]
      simp
  · intro heq
    rw [advanceTurn_eq, if_pos (show (bumpTurn (autoFillPhase room now)).gameState.turnNumber
        ≥ (bumpTurn (autoFillPhase room now)).players.length from by
      rw [hBturn, hBplayers]; exact Nat.le_of_eq heq.symm)]
    refine ⟨?_, (endGame_fields _).2.1, ?_, ?_⟩
    · rw [(endGame_fields _).1, hBplayers]
    · rw [(endGame_fields _).2.2.1, hBturn, heq]
    · intro b hb
      rw [(endGame_fields _).2.2.2, (bumpTurn_fields _).2.2.2.2] at hb
      rw [midinv_autofill_books now ps k done room h b hb, ← expectedPages_succ, heq]

theorem midinv_pages_after_append (ps : List Player) (k : Nat) (done : List Player) (r : Room)
    (h : MidInv ps k done r) (p : Player) (hpnd : p.id ∉ done.map Player.id)
    (hact2 : getCurrentAction k ps.length ≠ TurnAction.skipRound) (pg : Page) :
    ∀ b ∈ updateFirst (fun bk => bk.currentHolderId == p.id)
        (fun bk => { bk with pages := bk.pages ++ [pg] }) r.gameState.books,
      b.pages.length = expectedPages ps.length k +
        (if getCurrentAction k ps.length ≠ TurnAction.skipRound ∧
            b.currentHolderId ∈ (done ++ [p]).map Player.id then 1 else 0) := by
  have hbooknd := midinv_holders_nodup ps k done r h
  intro b hb
  rw [updateFirst_eq_map_of_nodup Book.currentHolderId p.id _ r.gameState.books hbooknd] at hb
  obtain ⟨bk, hbk, hbe⟩ := List.mem_map.mp hb
  subst hbe
  have hbkpg := h.pages_eq bk hbk
  by_cases hh : (bk.currentHolderId == p.id) = true
  · rw [if_pos hh]
    have hhp : bk.currentHolderId = p.id := by simpa using hh
    rw [if_neg (fun hcon => hpnd (hhp ▸ hcon.2))] at hbkpg
    show (bk.pages ++ [pg]).length = expectedPages ps.length k +
      (if getCurrentAction k ps.length ≠ TurnAction.skipRound ∧
          bk.currentHolderId ∈ (done ++ [p]).map Player.id then 1 else 0)
    have hmem2 : bk.currentHolderId ∈ (done ++ [p]).map Player.id := by
      rw [hhp, List.map_append]
      exact List.mem_append_right _ (by simp)
    rw [List.length_append, hbkpg, if_pos ⟨hact2, hmem2⟩]
    simp
  · rw [if_neg hh]
    have hhp : bk.currentHolderId ≠ p.id := by simpa using hh
    by_cases hmem3 : bk.currentHolderId ∈ done.map Player.id
    · rw [if_pos ⟨hact2, hmem3⟩] at hbkpg
      rw [hbkpg, if_pos ⟨hact2, by
        rw [List.map_append]; exact List.mem_append_left _ hmem3⟩]
    · rw [if_neg (fun hcon => hmem3 hcon.2)] at hbkpg
      have hneg : ¬ (getCurrentAction k ps.length ≠ TurnAction.skipRound ∧
          bk.currentHolderId ∈ (done ++ [p]).map Player.id) := by
        intro hcon
        have hcon2 := hcon.2
        rw [List.map_append] at hcon2
        rcases List.mem_append.mp hcon2 with h1 | h2
        · exact hmem3 h1
        · exact hhp (by simpa using h2)
      rw [hbkpg, if_neg hneg]

theorem midinv_submit_step (d g : String) (now : Nat) (ps : List Player) (k : Nat)
    (done : List Player) (r : Room) (p : Player)
    (h : MidInv ps k done r) (hp : p ∈ ps) (hpnd : p.id ∉ done.map Player.id) :
    ∃ r2, MidInv ps k (done ++ [p]) r2 ∧
      submitTurnAction d g now r p
        = (if submittedCountCheck r2 then advanceTurn r2 now else r2) ∧
      ((submittedCountCheck r2 = true) ↔ done.length + 1 = ps.length) := by
  have hfindp : r.players.find? (fun x => x.socketId == p.socketId) = some p := by
    rw [h.players_eq]
    exact find?_key_self Player.socketId p ps h.nodup_socks hp
  have hcont : r.gameState.submittedPlayerIds.contains p.id = false := by
    rw [h.submitted_eq]
    simpa using hpnd
  have haR : getCurrentAction r.gameState.turnNumber r.players.length
      = getCurrentAction k ps.length := by rw [h.turn_eq, h.players_eq]
  unfold submitTurnAction
  rw [haR]
  cases hact : getCurrentAction k ps.length with
  | skipRound =>
    have hcore := submitSkipReadyCore_success r p.socketId p h.status_eq hfindp
      (haR.trans hact) hcont
    refine ⟨{ r with gameState := { r.gameState with
        submittedPlayerIds := r.gameState.submittedPlayerIds ++ [p.id] } },
      ⟨h.players_eq, h.nodup_ids, h.nodup_socks, h.status_eq, h.turn_eq, h.turn_lt,
        ?_, h.holders_eq, ?_⟩, ?_, ?_⟩
    · show r.gameState.submittedPlayerIds ++ [p.id] = _
      rw [h.submitted_eq, List.map_append]
      rfl
    · intro b hb
      have hbp := h.pages_eq b hb
      show b.pages.length = _
      rw [hbp, if_neg (fun hcon => hcon.1 hact), if_neg (fun hcon => hcon.1 hact)]
    · show submitSkipReady r p.socketId now = _
      unfold submitSkipReady
      rw [hcore]
    · show (submittedCountCheck _ = true) ↔ _
      simp [submittedCountCheck, h.submitted_eq, h.players_eq]
  | draw =>
    have hpmemids : p.id ∈ r.gameState.books.map Book.currentHolderId := by
      rw [h.holders_eq]
      exact (List.rotate_perm (ps.map Player.id) k).mem_iff.mpr
        (List.mem_map_of_mem Player.id hp)
    obtain ⟨b, hbfind, hbkey, hbmem⟩ :=
      find?_key_of_mem_map Book.currentHolderId p.id r.gameState.books hpmemids
    have hcore := submitDrawingCore_success r p.socketId d now p h.status_eq hfindp hcont b hbfind
    refine ⟨{ r with gameState := { r.gameState with
        books := updateFirst (fun bk => bk.currentHolderId == p.id)
          (fun bk => { bk with pages := bk.pages ++
            [(⟨.draw, p.id, p.name, d, now, none⟩ : Page)] }) r.gameState.books,
        submittedPlayerIds := r.gameState.submittedPlayerIds ++ [p.id] } },
      ⟨h.players_eq, h.nodup_ids, h.nodup_socks, h.status_eq, h.turn_eq, h.turn_lt,
        ?_, ?_, ?_⟩, ?_, ?_⟩
    · show r.gameState.submittedPlayerIds ++ [p.id] = _
      rw [h.submitted_eq, List.map_append]
      rfl
    · show (updateFirst _ _ r.gameState.books).map Book.currentHolderId = _
      rw [map_holder_updateFirst_append, h.holders_eq]
    · intro b' hb'
      exact midinv_pages_after_append ps k done r h p hpnd (by rw [hact]; simp) _ b' hb'
    · show submitDrawing r p.socketId d now = _
      unfold submitDrawing
      rw [hcore]
    · show (submittedCountCheck _ = true) ↔ _
      simp [submittedCountCheck, h.submitted_eq, h.players_eq]
  | guess =>
    have hpmemids : p.id ∈ r.gameState.books.map Book.currentHolderId := by
      rw [h.holders_eq]
      exact (List.rotate_perm (ps.map Player.id) k).mem_iff.mpr
        (List.mem_map_of_mem Player.id hp)
    obtain ⟨b, hbfind, hbkey, hbmem⟩ :=
      find?_key_of_mem_map Book.currentHolderId p.id r.gameState.books hpmemids
    have hcore := submitGuessCore_success r p.socketId g now p h.status_eq hfindp hcont b hbfind
    refine ⟨{ r with gameState := { r.gameState with
        books := updateFirst (fun bk => bk.currentHolderId == p.id)
          (fun bk => { bk with pages := bk.pages ++
            [(⟨.guess, p.id, p.name, g.trim, now, none⟩ : Page)] }) r.gameState.books,
        submittedPlayerIds := r.gameState.submittedPlayerIds ++ [p.id] } },
      ⟨h.players_eq, h.nodup_ids, h.nodup_socks, h.status_eq, h.turn_eq, h.turn_lt,
        ?_, ?_, ?_⟩, ?_, ?_⟩
    · show r.gameState.submittedPlayerIds ++ [p.id] = _
      rw [h.submitted_eq, List.map_append]
      rfl
    · show (updateFirst _ _ r.gameState.books).map Book.currentHolderId = _
      rw [map_holder_updateFirst_append, h.holders_eq]
    · intro b' hb'
      exact midinv_pages_after_append ps k done r h p hpnd (by rw [hact]; simp) _ b' hb'
    · show submitGuess r p.socketId g now = _
      unfold submitGuess
      rw [hcore]
    · show (submittedCountCheck _ = true) ↔ _
      simp [submittedCountCheck, h.submitted_eq, h.players_eq]

theorem resolveTurn_eq (d g : String) (now : Nat) (r : Room) (subs : List Player) :
    resolveTurn d g now r subs =
      if (subs.foldl (fun acc p => submitTurnAction d g now acc p) r).gameState.turnNumber
          == r.gameState.turnNumber
      then advanceTurn (subs.foldl (fun acc p => submitTurnAction d g now acc p) r) now
      else subs.foldl (fun acc p => submitTurnAction d g now acc p) r := rfl

theorem midinv_submit_fold (d g : String) (now : Nat) (ps : List Player) (k : Nat) :
    ∀ (todo done : List Player) (r : Room),
      MidInv ps k done r →
      ((done ++ todo).map Player.id).Nodup →
      (∀ p ∈ todo, p ∈ ps) →
      (done ++ todo).length < ps.length →
      MidInv ps k (done ++ todo)
        (todo.foldl (fun acc p => submitTurnAction d g now acc p) r)
  | [], done, r, h, _, _, _ => by simpa using h
  | p :: todo, done, r, h, hnd, hmem, hlen => by
    rw [List.foldl_cons]
    try dsimp only
    have hpnd : p.id ∉ done.map Player.id := by
      rw [List.map_append] at hnd
      have hdisj := (List.nodup_append.mp hnd).2.2
      intro hmem2
      exact hdisj hmem2 (by simp)
    obtain ⟨r2, hr2, heq, hiff⟩ := midinv_submit_step d g now ps k done r p h
      (hmem p (List.mem_cons_self _ _)) hpnd
    have hchk : ¬ submittedCountCheck r2 = true := by
      rw [hiff]
      rw [List.length_append, List.length_cons] at hlen
      omega
    rw [heq, if_neg hchk]
    have hrec := midinv_submit_fold d g now ps k todo (done ++ [p]) r2 hr2
      (by rwa [List.append_assoc, List.singleton_append])
      (fun q hq => hmem q (List.mem_cons_of_mem _ hq))
      (by rw [List.append_assoc, List.singleton_append]; exact hlen)
    rwa [List.append_assoc, List.singleton_append] at hrec

theorem midinv_resolveTurn (d g : String) (now : Nat) (ps : List Player) (k : Nat)
    (room : Room) (subs : List Player) (h : MidInv ps k [] room)
    (hnd : (subs.map Player.id).Nodup) (hmem : ∀ p ∈ subs, p ∈ ps) :
    (k + 1 < ps.length → MidInv ps (k + 1) [] (resolveTurn d g now room subs)) ∧
    (k + 1 = ps.length →
      (resolveTurn d g now room subs).players = ps ∧
      (resolveTurn d g now room subs).gameState.status = Status.REVEAL ∧
      (resolveTurn d g now room subs).gameState.turnNumber = ps.length ∧
      ∀ b ∈ (resolveTurn d g now room subs).gameState.books,
        b.pages.length = expectedPages ps.length ps.length) := by
  have hlen : subs.length ≤ ps.length := by
    have hsp : List.Subperm (subs.map Player.id) (ps.map Player.id) :=
      hnd.subperm (fun x hx => by
        obtain ⟨q, hq, hqe⟩ := List.mem_map.mp hx
        exact hqe ▸ List.mem_map_of_mem Player.id (hmem q hq))
    simpa using hsp.length_le
  rcases Nat.lt_or_ge subs.length ps.length with htl | hge
  · have hfold := midinv_submit_fold d g now ps k subs [] room (by simpa using h)
      (by simpa using hnd) hmem (by simpa using htl)
    rw [List.nil_append] at hfold
    have hcond : ((subs.foldl (fun acc p => submitTurnAction d g now acc p)
        room).gameState.turnNumber == room.gameState.turnNumber) = true := by
      rw [hfold.turn_eq, h.turn_eq]
      simp
    rw [resolveTurn_eq, if_pos hcond]
    exact midinv_advanceTurn now ps k subs _ hfold
  · have heqlen : subs.length = ps.length := Nat.le_antisymm hlen hge
    rcases List.eq_nil_or_concat subs with rfl | ⟨init, last, hsubs⟩
    · exfalso
      have := h.turn_lt
      simp at heqlen
      omega
    · rw [List.concat_eq_append] at hsubs
      subst hsubs
      have hlen2 : init.length + 1 = ps.length := by simpa using heqlen
      have hndA : ((init.map Player.id) ++ ([last].map Player.id)).Nodup := by
        rwa [← List.map_append]
      have hfold := midinv_submit_fold d g now ps k init [] room (by simpa using h)
        (by simpa using (List.nodup_append.mp hndA).1)
        (fun q hq => hmem q (List.mem_append_left _ hq))
        (by simp only [List.nil_append]; omega)
      rw [List.nil_append] at hfold
      have hlastnd : last.id ∉ init.map Player.id := by
        intro hmem2
        exact (List.nodup_append.mp hndA).2.2 hmem2 (by simp)
      obtain ⟨r2, hr2, heq2, hiff2⟩ := midinv_submit_step d g now ps k init
        (init.foldl (fun acc p => submitTurnAction d g now acc p) room) last hfold
        (hmem last (by simp)) hlastnd
      have hchk : submittedCountCheck r2 = true := hiff2.mpr hlen2
      have hfoldeq : (init ++ [last]).foldl (fun acc p => submitTurnAction d g now acc p) room
          = advanceTurn r2 now := by
        rw [List.foldl_append, List.foldl_cons, List.foldl_nil]
        try dsimp only
        rw [heq2, if_pos hchk]
      have hadv := midinv_advanceTurn now ps k (init ++ [last]) r2 hr2
      have hcondF : ((advanceTurn r2 now).gameState.turnNumber
          == room.gameState.turnNumber) = false := by
        rw [advanceTurn_turn, hr2.turn_eq, h.turn_eq]
        simp
      have hresolve : resolveTurn d g now room (init ++ [last]) = advanceTurn r2 now := by
        rw [resolveTurn_eq, hfoldeq, if_neg (by rw [hcondF]; simp)]
      rw [hresolve]
      exact hadv

theorem playTurns_nil (d g : String) (now : Nat) (r : Room) : playTurns d g now r [] = r := rfl

theorem playTurns_cons (d g : String) (now : Nat) (r : Room) (subs : List Player)
    (rest : List (List Player)) :
    playTurns d g now r (subs :: rest)
      = playTurns d g now (resolveTurn d g now r subs) rest := rfl

theorem midinv_playTurns (d g : String) (now : Nat) (ps : List Player) :
    ∀ (seq : List (List Player)) (k : Nat) (room : Room),
      MidInv ps k [] room →
      (∀ subs ∈ seq, (subs.map Player.id).Nodup ∧ ∀ p ∈ subs, p ∈ ps) →
      k + seq.length ≤ ps.length →
      (k + seq.length < ps.length →
        MidInv ps (k + seq.length) [] (playTurns d g now room seq)) ∧
      (k + seq.length = ps.length →
        (playTurns d g now room seq).players = ps ∧
        (playTurns d g now room seq).gameState.status = Status.REVEAL ∧
        (playTurns d g now room seq).gameState.turnNumber = ps.length ∧
        ∀ b ∈ (playTurns d g now room seq).gameState.books,
          b.pages.length = expectedPages ps.length ps.length)
  | [], k, room, h, _, _ => by
    constructor
    · intro _
      show MidInv ps (k + 0) [] room
      simpa using h
    · intro heq
      exfalso
      have := h.turn_lt
      simp at heq
      omega
  | subs :: rest, k, room, h, hseq, hle => by
    rw [playTurns_cons]
    have hsubs := hseq subs (List.mem_cons_self _ _)
    have hres := midinv_resolveTurn d g now ps k room subs h hsubs.1 hsubs.2
    rcases Nat.lt_or_ge (k + 1) ps.length with hlt1 | hge1
    · have h2 := hres.1 hlt1
      have hrec := midinv_playTurns d g now ps rest (k + 1) _ h2
        (fun s hs => hseq s (List.mem_cons_of_mem _ hs))
        (by simp only [List.length_cons] at hle; omega)
      constructor
      · intro hlt
        have hidx : k + (subs :: rest).length = k + 1 + rest.length := by
          simp only [List.length_cons]
          omega
        rw [hidx]
        exact hrec.1 (by rw [← hidx]; exact hlt)
      · intro heq
        exact hrec.2 (by simp only [List.length_cons] at heq; omega)
    · have hk1 : k + 1 = ps.length := by
        have := h.turn_lt
        omega
      have hrest : rest = [] := by
        simp only [List.length_cons] at hle
        have hr0 : rest.length = 0 := by omega
        exact List.length_eq_zero.mp hr0
      subst hrest
      rw [playTurns_nil]
      have hend := hres.2 hk1
      constructor
      · intro hlt
        exfalso
        simp only [List.length_cons] at hlt
        omega
      · intro _
        exact hend

theorem startNewTurn_zero_books (r : Room) (now : Nat) (h0 : r.gameState.turnNumber = 0) :
    startNewTurn r now = resetTurnMeta r now := by
  rw [startNewTurn_eq,
    if_neg (show ¬ (resetTurnMeta r now).gameState.turnNumber > 0 from by
      rw [(resetTurnMeta_fields r now).2.1, h0]; simp)]

theorem midinv_start (ps : List Player) (r : Room) (t0 : Nat)
    (hps : r.players = ps)
    (hids : (ps.map Player.id).Nodup)
    (hsocks : (ps.map Player.socketId).Nodup)
    (hpos : 0 < ps.length)
    (hst : r.gameState.status = Status.PLAYING)
    (h0 : r.gameState.turnNumber = 0)
    (hholders : r.gameState.books.map Book.currentHolderId = ps.map Player.id)
    (hpages : ∀ b ∈ r.gameState.books, b.pages.length = 1) :
    MidInv ps 0 [] (startNewTurn r t0) := by
  rw [startNewTurn_zero_books r t0 h0]
  have hF := resetTurnMeta_fields r t0
  refine ⟨hF.1.trans hps, hids, hsocks, ?_, ?_, hpos, ?_, ?_, ?_⟩
  · rw [hF.2.2.1, hst]
  · rw [hF.2.1, h0]
  · rw [hF.2.2.2.1]
    rfl
  · rw [hF.2.2.2.2, List.rotate_zero, hholders]
  · intro b hb
    rw [hF.2.2.2.2] at hb
    rw [hpages b hb, if_neg (fun hcon => by simpa using hcon.2)]
    have h1 : expectedPages ps.length 0 = 1 := by
      unfold expectedPages
      rcases Nat.mod_two_eq_zero_or_one ps.length with hpar | hpar <;> simp [hpar]
    rw [h1]

theorem startGame_midinv (L : Room) (host : Player) (words : List String) (t0 : Nat)
    (hids : (L.players.map Player.id).Nodup)
    (hsocks : (L.players.map Player.socketId).Nodup)
    (hN : 2 ≤ L.players.length)
    (hfind : L.players.find? (fun p => p.socketId == host.socketId) = some host)
    (hhost : host.isHost = true) :
    MidInv L.players 0 [] (startGame L host.socketId words t0) := by
  unfold startGame
  rw [hfind]
  dsimp only
  rw [if_neg (by simp [hhost]), if_neg (Nat.not_lt.mpr hN)]
  apply midinv_start
  · rfl
  · exact hids
  · exact hsocks
  · omega
  · rfl
  · rfl
  · exact mapIdx_map_key _ Book.currentHolderId Player.id (fun i p => rfl) L.players
  · intro b hb
    have hb2 : b ∈ L.players.mapIdx (fun index p =>
      ({ id := p.id
         ownerName := p.name
         secretWord := words.getD index ""
         pages := [{ type := .word, playerId := p.id, playerName := "SECRET"
                     content := words.getD index "", timestamp := t0 }]
         currentHolderId := p.id } : Book)) := hb
    rw [List.mapIdx_eq_enum_map] at hb2
    obtain ⟨ip, _, hbe⟩ := List.mem_map.mp hb2
    obtain ⟨i, p⟩ := ip
    rw [← hbe]
    rfl

/-- C4. Auto-fill shape: during advancement, for a player not in the
submitted set who holds a book, on a non skip turn exactly one auto-fill
page is appended to that book — with empty content (never a copy of the
previous page), the author identity and name of that player, and the
disconnected flag true exactly when the player connection is down at that
moment — and the player is credited as submitted; on a skip turn the books
are left completely unchanged and the player is only credited. -/
theorem c4_autofill_page_shape (room : Room) (now : Nat) (p : Player) (b : Book)
    (hids : (room.players.map Player.id).Nodup)
    (hbooknd : (room.gameState.books.map Book.currentHolderId).Nodup)
    (hmem : p ∈ room.players)
    (hnotsub : room.gameState.submittedPlayerIds.contains p.id = false)
    (hbfind : room.gameState.books.find? (fun bk => bk.currentHolderId == p.id) = some b) :
    (getCurrentAction room.gameState.turnNumber room.players.length ≠ .skipRound →
      (autoFillPhase room now).gameState.books.find? (fun bk => bk.currentHolderId == p.id)
        = some { b with pages := b.pages ++
            [autoPage p (getCurrentAction room.gameState.turnNumber room.players.length)
              (!p.isConnected) now] }) ∧
    (getCurrentAction room.gameState.turnNumber room.players.length = .skipRound →
      (autoFillPhase room now).gameState.books = room.gameState.books) ∧
    p.id ∈ (autoFillPhase room now).gameState.submittedPlayerIds ∧
    (∀ (q2 : Player) (act : TurnAction) (dc : Bool) (t : Nat),
      (autoPage q2 act dc t).content = "" ∧ (autoPage q2 act dc t).disconnected = some dc ∧
      (autoPage q2 act dc t).playerId = q2.id ∧ (autoPage q2 act dc t).playerName = q2.name) := by
  have hfind : ∀ q ∈ room.players, room.players.find? (fun x => x.id == q.id) = some q :=
    fun q hq => find?_key_self Player.id q room.players hids hq
  have hpm : p.id ∈ room.gameState.books.map Book.currentHolderId := by
    have hb2 : b.currentHolderId = p.id := by simpa using List.find?_some hbfind
    rw [← hb2]
    exact List.mem_map_of_mem _ (List.mem_of_find?_eq_some hbfind)
  refine ⟨?_, ?_, ?_, fun q2 act dc t => ⟨rfl, rfl, rfl, rfl⟩⟩
  · intro ha
    exact autoFill_fold_appends room.gameState.submittedPlayerIds now room.players room p b
      hfind hbooknd hids ha hbfind hmem hnotsub hnotsub
  · intro ha
    exact autoFill_fold_books_skip room.gameState.submittedPlayerIds now room.players room ha
  · exact autoFill_fold_credits room.gameState.submittedPlayerIds now room.players room p
      hfind hmem hnotsub hpm

/-- C4, witness: in the two player game at turn 0 (a draw turn) neither
player has submitted; advancement auto-fills Bob with exactly one empty,
connected page on his own book and credits him. -/
theorem c4_autofill_page_shape_witness :
    (autoFillPhase gameTwo 77).gameState.books.find? (fun bk => bk.currentHolderId == pBob.id)
      = some { bookBobTwo with pages := bookBobTwo.pages ++
          [autoPage pBob (getCurrentAction gameTwo.gameState.turnNumber gameTwo.players.length)
            (!pBob.isConnected) 77] } ∧
    pBob.id ∈ (autoFillPhase gameTwo 77).gameState.submittedPlayerIds := by
  have h := c4_autofill_page_shape gameTwo 77 pBob bookBobTwo (by decide) (by decide)
    (by decide) (by decide) (by decide)
  exact ⟨h.1 (by decide), h.2.2.1⟩

/-- C8. Action type derivation is a pure function of turn index and player
count: the code function getCurrentAction coincides, on every turn index
and player count, with the characterization written in the specification
(odd count: turn 0 skip, later turn t draws when t - 1 is even and guesses
when t - 1 is odd; even count: no skip round and turn t draws exactly when
t is even, starting with a draw at turn 0). -/
theorem c8_action_type_derivation (t n : Nat) :
    getCurrentAction t n = specActionOfTurn t n := by
  unfold getCurrentAction specActionOfTurn
  rcases Nat.mod_two_eq_zero_or_one n with h | h
  · simp [h]
  · by_cases ht : t = 0 <;> simp [h, ht]

/-- C1. The claim is refuted by the code: the re-check in the grace-delayed
timer callback compares the turn number of the live room object with
itself (the closure captures a reference to the same object the registry
returns), so it is always true, and a manual full submission racing the
already fired timer advances the turn twice. Concretely, in a two player
game at turn 0, Alice submits, the timer fires, Bob completes the turn
(advancing to turn 1), and the grace callback then advances again: the
turn number ends at 2, the game ends, and every book receives an extra
auto-filled page. -/
theorem c1_grace_guard_vacuous_double_advance :
    (∀ room : Room, graceGuard room = true) ∧
    raceStart.room.gameState.turnNumber = 0 ∧
    (submitDrawingS (timerFire (submitDrawingS raceStart "sA" "img" 10)) "sB" "img" 20).room.gameState.turnNumber = 1 ∧
    raceFinal.room.gameState.turnNumber = 2 ∧
    raceFinal.room.gameState.status = Status.REVEAL ∧
    raceFinal.room.gameState.books.map (fun b => b.pages.length) = [3, 3] := by
  refine ⟨fun room => ?_, ?_, ?_, ?_, ?_, ?_⟩
  · simp [graceGuard]
  · decide
  · decide
  · decide
  · decide
  · decide

/-- C2, counterexample. The holder invariant is not preserved by mid game
player removal: in the two player game, after Alice disconnects and the
grace timer removes her, the room is still in playing status, Bob is the
only player, and the book Alice held still names her as holder, so it is
held by nobody in the player list. -/
theorem c2_holder_invariant_counterexample :
    removalResult.map (fun r =>
        (r.gameState.status, r.players.map Player.id, r.gameState.books.map Book.currentHolderId))
      = some (Status.PLAYING, ["B"], ["A", "B"]) ∧
    removalResult.map (fun r =>
        decide (∀ b ∈ r.gameState.books, b.currentHolderId ∈ r.players.map Player.id))
      = some false := by
  constructor
  · decide
  · decide

/-- C2, amended claim. With distinct player identities, the book holder
assignment is a permutation of the current player list at game start and
this is preserved by every game operation that leaves the player list
unchanged: book rotation, drawing and guess submissions, skip round
acknowledgements, un-submit, and turn advancement. (As the counterexample
shows, mid game player removal does NOT preserve it: the removed player
can still be the named holder of a book.) -/
theorem c2_holder_invariant_amended (room : Room) (now : Nat)
    (hnd : (room.players.map Player.id).Nodup) (hperm : holderPermutation room) :
    holderPermutation (rotateBooks room) ∧
    (∀ sid words, holderPermutation (startGame room sid words now)) ∧
    (∀ sid d, holderPermutation (submitDrawing room sid d now)) ∧
    (∀ sid g, holderPermutation (submitGuess room sid g now)) ∧
    (∀ sid, holderPermutation (submitSkipReady room sid now)) ∧
    (∀ sid, holderPermutation (unsubmit room sid)) ∧
    holderPermutation (advanceTurn room now) :=
  ⟨holderPermutation_rotateBooks room hnd hperm,
   fun sid words => (holderPermutation_startGame room sid words now hperm).1,
   fun sid d => (holderPermutation_submitDrawing room sid d now hnd hperm).1,
   fun sid g => (holderPermutation_submitGuess room sid g now hnd hperm).1,
   fun sid => (holderPermutation_submitSkipReady room sid now hnd hperm).1,
   fun sid => (holderPermutation_unsubmit room sid hperm).1,
   (holderPermutation_advanceTurn room now hnd hperm).1⟩

/-- C2, witness: the invariant holds in the freshly started two player
game and is preserved there by rotation, by a concrete drawing submission,
and by advancement. -/
theorem c2_holder_invariant_amended_witness :
    holderPermutation (rotateBooks gameTwo) ∧
    holderPermutation (submitDrawing gameTwo "sA" "img" 50) ∧
    holderPermutation (advanceTurn gameTwo 50) := by
  have h := c2_holder_invariant_amended gameTwo 50 (by decide)
    (by show (gameTwo.gameState.books.map Book.currentHolderId).Perm
          (gameTwo.players.map Player.id)
        decide)
  exact ⟨h.1, h.2.2.1 "sA" "img", h.2.2.2.2.2.2⟩

/-- C3, counterexample. The completeness check is count based, not identity
based: on turn 1 of a three player game, Alice and Cara submit and Cara is
then kicked. The submitted list still has two entries while two players
remain, so the count check reports completeness although Bob never
submitted; after Bob does submit, every current player has submitted, yet
the count check fails (three entries against two players) and the turn is
not advanced. -/
theorem c3_completeness_check_counterexample :
    submittedCountCheck kickedMidTurnRoom = true ∧
    identityCompleteCheck kickedMidTurnRoom = false ∧
    identityCompleteCheck afterBobRoom = true ∧
    submittedCountCheck afterBobRoom = false ∧
    afterBobRoom.gameState.turnNumber = kickedMidTurnRoom.gameState.turnNumber := by
  refine ⟨?_, ?_, ?_, ?_, ?_⟩ <;> decide

/-- C7, counterexample. The un-submit round trip fails after a skip round
acknowledgement: in the three player game on the skip round, the books
all hold exactly the seed page; Alice acknowledges ready (no page added)
and then un-submits, and because the seed page of the book she holds is
attributed to her own identity, un-submit pops the seed page, leaving her
book with zero pages instead of the pre-submit count of one. -/
theorem c7_unsubmit_roundtrip_counterexample :
    gameThree.gameState.books.map (fun b => b.pages.length) = [1, 1, 1] ∧
    skipReadyRoom.gameState.books.map (fun b => b.pages.length) = [1, 1, 1] ∧
    unsubmitAfterSkipRoom.gameState.books.map (fun b => b.pages.length) = [0, 1, 1] ∧
    unsubmitAfterSkipRoom.gameState.submittedPlayerIds = [] := by
  refine ⟨?_, ?_, ?_, ?_⟩ <;> decide

/-- C9, counterexample. For an odd player count the books do not end with
N + 1 pages: the three player game played to completion (every player
submitting every turn) ends in reveal status at turn index 3 with every
book holding exactly 3 pages (seed plus two content turns; the skip round
contributed none), not 4 = N + 1 as claimed. -/
theorem c9_game_length_counterexample :
    finishedThree.gameState.status = Status.REVEAL ∧
    finishedThree.gameState.turnNumber = 3 ∧
    finishedThree.gameState.books.map (fun b => b.pages.length) = [3, 3, 3] ∧
    finishedThree.gameState.books.map (fun b => b.pages.length) ≠ [4, 4, 4] := by
  refine ⟨?_, ?_, ?_, ?_⟩ <;> decide

/-- C9, amended. For every lobby room with N distinct players (N at least
2) whose host starts the game, a full conforming play of N turns — on each
turn a duplicate-free set of current players submits the action the turn
prescribes, and the turn advances (through the completing submission or
the timer) — reaches reveal status exactly when the turn index reaches N
and not before: after any proper prefix of j < N turns the room is still
playing at turn index j, and at the end every book holds exactly N + 1
pages when N is even but exactly N pages when N is odd (the seed page plus
one page per content turn; the skip round of an odd game contributes no
page), not N + 1 unconditionally as claimed. -/
theorem c9_game_length_amended (L : Room) (host : Player) (words : List String)
    (d g : String) (t0 now : Nat) (seq : List (List Player))
    (hids : (L.players.map Player.id).Nodup)
    (hsocks : (L.players.map Player.socketId).Nodup)
    (hN : 2 ≤ L.players.length)
    (hfind : L.players.find? (fun p => p.socketId == host.socketId) = some host)
    (hhost : host.isHost = true)
    (hseq : ∀ subs ∈ seq, (subs.map Player.id).Nodup ∧ ∀ p ∈ subs, p ∈ L.players)
    (hseqlen : seq.length = L.players.length) :
    (∀ j, j < L.players.length →
      (playTurns d g now (startGame L host.socketId words t0) (seq.take j)).gameState.status
        = Status.PLAYING ∧
      (playTurns d g now (startGame L host.socketId words t0) (seq.take j)).gameState.turnNumber
        = j) ∧
    (playTurns d g now (startGame L host.socketId words t0) seq).gameState.status
      = Status.REVEAL ∧
    (playTurns d g now (startGame L host.socketId words t0) seq).gameState.turnNumber
      = L.players.length ∧
    ∀ b ∈ (playTurns d g now (startGame L host.socketId words t0) seq).gameState.books,
      b.pages.length = (if L.players.length % 2 = 0
        then L.players.length + 1 else L.players.length) := by
  have h0 := startGame_midinv L host words t0 hids hsocks hN hfind hhost
  constructor
  · intro j hjN
    have htake : ∀ subs ∈ seq.take j, (subs.map Player.id).Nodup ∧ ∀ p ∈ subs, p ∈ L.players :=
      fun s hs => hseq s (List.take_subset _ _ hs)
    have hlen : (seq.take j).length = j := by
      rw [List.length_take]
      omega
    have hmp := midinv_playTurns d g now L.players (seq.take j) 0
      (startGame L host.socketId words t0) h0 htake (by rw [hlen]; omega)
    have hmid := hmp.1 (by rw [hlen]; omega)
    exact ⟨hmid.status_eq, hmid.turn_eq.trans (by rw [hlen]; exact Nat.zero_add j)⟩
  · have hmp := midinv_playTurns d g now L.players seq 0
      (startGame L host.socketId words t0) h0 hseq (by omega)
    have hend := hmp.2 (by omega)
    refine ⟨hend.2.1, hend.2.2.1, ?_⟩
    intro b hb
    rw [hend.2.2.2 b hb]
    unfold expectedPages
    rcases Nat.mod_two_eq_zero_or_one L.players.length with hpar | hpar
    · simp [hpar]
    · simp [hpar]
      omega

/-- C9, amended witness: the three player game (an odd count), played to
completion with all three players submitting on each of the three turns,
stays in playing status through the proper prefixes and ends in reveal at
turn index 3 with every book holding exactly 3 pages. -/
theorem c9_game_length_amended_witness :
    (playTurns "d" "g" 7 (startGame lobbyThree "sA" ["cat", "dog", "elk"] 0)
        [[pAlice, pBob, pCara], [pAlice, pBob, pCara],
          [pAlice, pBob, pCara]]).gameState.status = Status.REVEAL ∧
    (playTurns "d" "g" 7 (startGame lobbyThree "sA" ["cat", "dog", "elk"] 0)
        [[pAlice, pBob, pCara], [pAlice, pBob, pCara],
          [pAlice, pBob, pCara]]).gameState.turnNumber = lobbyThree.players.length ∧
    ∀ b ∈ (playTurns "d" "g" 7 (startGame lobbyThree "sA" ["cat", "dog", "elk"] 0)
        [[pAlice, pBob, pCara], [pAlice, pBob, pCara],
          [pAlice, pBob, pCara]]).gameState.books,
      b.pages.length = (if lobbyThree.players.length % 2 = 0
        then lobbyThree.players.length + 1 else lobbyThree.players.length) :=
  (c9_game_length_amended lobbyThree pAlice ["cat", "dog", "elk"] "d" "g" 0 7
    [[pAlice, pBob, pCara], [pAlice, pBob, pCara], [pAlice, pBob, pCara]]
    (by decide) (by decide) (by decide) (by decide) (by decide) (by decide) (by decide)).2

/-- C5. Visibility filter contract: for every room and recipient identity,
the view produced during playing status contains at most one book and any
book it contains is held by that identity; during lobby or reveal status
the view contains all books unfiltered; and the settings object of the
view is a deep copy — in the reference heap model, the JSON round trip
allocates a reference different from the one held by the room, with an
equal value. -/
theorem c5_visibility_filter (room : Room) (pid : String) (h : SettingsHeap) (ref : Nat)
    (href : ref < h.length) :
    (room.gameState.status = Status.PLAYING →
      (sanitizeRoomForPlayer room pid).gameState.books.length ≤ 1 ∧
      ∀ b ∈ (sanitizeRoomForPlayer room pid).gameState.books, b.currentHolderId = pid) ∧
    (room.gameState.status ≠ Status.PLAYING →
      (sanitizeRoomForPlayer room pid).gameState.books = room.gameState.books) ∧
    (jsonCloneSettings h ref).1 ≠ ref ∧
    (jsonCloneSettings h ref).2.getD (jsonCloneSettings h ref).1 { difficulties := [] }
      = h.getD ref { difficulties := [] } := by
  refine ⟨?_, ?_, ?_, ?_⟩
  · intro hst
    have hcond : (sanitizeRoom room).gameState.status = Status.PLAYING := by
      rw [sanitizeRoom_status]; exact hst
    simp only [sanitizeRoomForPlayer, hcond, if_true]
    cases hfind : (sanitizeRoom room).gameState.books.find? (fun b => b.currentHolderId == pid) with
    | none => simp
    | some b =>
      refine ⟨by simp, ?_⟩
      intro b' hb'
      have hb : b' = b := by simpa using hb'
      subst hb
      have := List.find?_some hfind
      simpa using this
  · intro hst
    have hcond : ¬ (sanitizeRoom room).gameState.status = Status.PLAYING := by
      rw [sanitizeRoom_status]; exact hst
    simp only [sanitizeRoomForPlayer, hcond, if_false]
    exact sanitizeRoom_books room
  · exact Nat.ne_of_gt href
  · show (h ++ [h.getD ref { difficulties := [] }]).getD h.length { difficulties := [] }
      = h.getD ref { difficulties := [] }
    rw [List.getD_append_right h _ _ _ (Nat.le_refl _)]
    simp

/-- C5, witness: the two player game is in playing status; the view for
Bob holds exactly his one book; and cloning the settings at reference 0 of
a one object heap yields the fresh reference 1 with an equal value. -/
theorem c5_visibility_filter_witness :
    gameTwo.gameState.status = Status.PLAYING ∧
    (sanitizeRoomForPlayer gameTwo "B").gameState.books.length ≤ 1 ∧
    (∀ b ∈ (sanitizeRoomForPlayer gameTwo "B").gameState.books, b.currentHolderId = "B") ∧
    (jsonCloneSettings [{ difficulties := ["easy"] }] 0).1 ≠ 0 ∧
    (jsonCloneSettings [{ difficulties := ["easy"] }] 0).2.getD
        (jsonCloneSettings [{ difficulties := ["easy"] }] 0).1 { difficulties := [] }
      = List.getD [{ difficulties := ["easy"] }] 0 { difficulties := [] } := by
  have h := c5_visibility_filter gameTwo "B" [{ difficulties := ["easy"] }] 0 (by decide)
  exact ⟨by decide, (h.1 (by decide)).1, (h.1 (by decide)).2, h.2.2.1, h.2.2.2⟩

/-- C10. The get-room query responds with the stored room object itself,
unfiltered: the response does not depend on which socket asks, and when
the room exists the callback receives the stored Room whole, books,
secret words and pages included, without passing through the visibility
filter. -/
theorem c10_get_room_unfiltered (rooms : List (String × Room)) (sid sid2 roomId : String)
    (entry : String × Room) (h : rooms.find? (fun e => e.fst == roomId) = some entry) :
    getRoomResponse rooms sid roomId = some entry.2 ∧
    getRoomResponse rooms sid2 roomId = getRoomResponse rooms sid roomId ∧
    (getRoomResponse rooms sid roomId).map (fun r => r.gameState.books)
      = some entry.2.gameState.books := by
  refine ⟨?_, rfl, ?_⟩
  · simp [getRoomResponse, h]
  · simp [getRoomResponse, h]

/-- C3, amended claim. The completeness check actually performed compares
the LENGTH of the submitted list with the LENGTH of the player list
(submittedCountCheck), not identity set membership. In the absence of
stale entries — the submitted list has no duplicates and every entry is
the identity of a current player — the count comparison succeeds exactly
when every current player has submitted, so the two tests agree; when a
player who already submitted leaves mid turn the two diverge (see the
counterexample). -/
theorem c3_completeness_check_amended (room : Room)
    (hnd : (room.players.map Player.id).Nodup)
    (hsubnd : room.gameState.submittedPlayerIds.Nodup)
    (hsub : ∀ s ∈ room.gameState.submittedPlayerIds, s ∈ room.players.map Player.id) :
    submittedCountCheck room = true ↔ identityCompleteCheck room = true := by
  have hcount : submittedCountCheck room = true ↔
      room.gameState.submittedPlayerIds.length = room.players.length := by
    simp [submittedCountCheck]
  have hident : identityCompleteCheck room = true ↔
      ∀ p ∈ room.players, p.id ∈ room.gameState.submittedPlayerIds := by
    simp [identityCompleteCheck]
  rw [hcount, hident]
  constructor
  · intro hlen p hp
    have hsp : List.Subperm room.gameState.submittedPlayerIds (room.players.map Player.id) :=
      hsubnd.subperm hsub
    have hperm : List.Perm room.gameState.submittedPlayerIds (room.players.map Player.id) :=
      hsp.perm_of_length_le (by rw [List.length_map, ← hlen])
    exact (hperm.mem_iff).mpr (List.mem_map_of_mem Player.id hp)
  · intro hall
    have h1 : room.players.map Player.id ⊆ room.gameState.submittedPlayerIds := by
      intro s hs
      obtain ⟨p, hp, rfl⟩ := List.mem_map.mp hs
      exact hall p hp
    have hle1 := (hnd.subperm h1).length_le
    have hle2 := (hsubnd.subperm hsub).length_le
    rw [List.length_map] at hle1 hle2
    omega

/-- C3, witness: on turn 1 of the three player game with Alice and Cara
submitted, the player identities are distinct, the submitted list is clean,
and the count test and the identity test agree (both report incomplete). -/
theorem c3_completeness_check_amended_witness :
    (submittedCountCheck twoSubmittedRoom = true ↔
      identityCompleteCheck twoSubmittedRoom = true) ∧
    submittedCountCheck twoSubmittedRoom = false := by
  refine ⟨c3_completeness_check_amended twoSubmittedRoom (by decide) (by decide) (by decide), ?_⟩
  decide

/-- C6. Submission preconditions and atomicity: a submit-drawing or
submit-guess leaves the room completely unchanged when the room is not in
playing status, or no player matches the submitting socket, or that player
already submitted this turn, or no book is currently held by that player;
otherwise the pre-advancement step appends exactly one page carrying the
author identity and name to the held book (all other books untouched) and
appends the identity to the submitted list. -/
theorem c6_submit_preconditions (room : Room) (sid d g : String) (now : Nat)
    (hbooknd : (room.gameState.books.map Book.currentHolderId).Nodup) :
    (room.gameState.status ≠ Status.PLAYING →
      submitDrawing room sid d now = room ∧ submitGuess room sid g now = room) ∧
    (room.players.find? (fun p => p.socketId == sid) = none →
      submitDrawing room sid d now = room ∧ submitGuess room sid g now = room) ∧
    (∀ player, room.players.find? (fun p => p.socketId == sid) = some player →
      room.gameState.submittedPlayerIds.contains player.id = true →
      submitDrawing room sid d now = room ∧ submitGuess room sid g now = room) ∧
    (∀ player, room.players.find? (fun p => p.socketId == sid) = some player →
      room.gameState.books.find? (fun bk => bk.currentHolderId == player.id) = none →
      submitDrawing room sid d now = room ∧ submitGuess room sid g now = room) ∧
    (∀ player b, room.gameState.status = Status.PLAYING →
      room.players.find? (fun p => p.socketId == sid) = some player →
      room.gameState.submittedPlayerIds.contains player.id = false →
      room.gameState.books.find? (fun bk => bk.currentHolderId == player.id) = some b →
      (submitDrawingCore room sid d now).map (fun r => r.gameState.books)
        = some (room.gameState.books.map (fun bk =>
            if bk.currentHolderId == player.id then
              { bk with pages := bk.pages ++ [(⟨.draw, player.id, player.name, d, now, none⟩ : Page)] }
            else bk)) ∧
      (submitDrawingCore room sid d now).map (fun r => r.gameState.submittedPlayerIds)
        = some (room.gameState.submittedPlayerIds ++ [player.id]) ∧
      (submitGuessCore room sid g now).map (fun r => r.gameState.books)
        = some (room.gameState.books.map (fun bk =>
            if bk.currentHolderId == player.id then
              { bk with pages := bk.pages ++ [(⟨.guess, player.id, player.name, g.trim, now, none⟩ : Page)] }
            else bk)) ∧
      (submitGuessCore room sid g now).map (fun r => r.gameState.submittedPlayerIds)
        = some (room.gameState.submittedPlayerIds ++ [player.id])) := by
  refine ⟨?_, ?_, ?_, ?_, ?_⟩
  · intro hst
    exact ⟨submitDrawing_eq_of_core_none _ _ _ _ (submitDrawingCore_none_status _ _ _ _ hst),
      submitGuess_eq_of_core_none _ _ _ _ (submitGuessCore_none_status _ _ _ _ hst)⟩
  · intro hfind
    exact ⟨submitDrawing_eq_of_core_none _ _ _ _ (submitDrawingCore_none_player _ _ _ _ hfind),
      submitGuess_eq_of_core_none _ _ _ _ (submitGuessCore_none_player _ _ _ _ hfind)⟩
  · intro player hfind hcont
    exact ⟨submitDrawing_eq_of_core_none _ _ _ _
        (submitDrawingCore_none_submitted _ _ _ _ player hfind hcont),
      submitGuess_eq_of_core_none _ _ _ _
        (submitGuessCore_none_submitted _ _ _ _ player hfind hcont)⟩
  · intro player hfind hbfind
    exact ⟨submitDrawing_eq_of_core_none _ _ _ _
        (submitDrawingCore_none_book _ _ _ _ player hfind hbfind),
      submitGuess_eq_of_core_none _ _ _ _
        (submitGuessCore_none_book _ _ _ _ player hfind hbfind)⟩
  · intro player b hst hfind hcont hbfind
    rw [submitDrawingCore_success room sid d now player hst hfind hcont b hbfind,
      submitGuessCore_success room sid g now player hst hfind hcont b hbfind]
    rw [updateFirst_eq_map_of_nodup Book.currentHolderId player.id _ room.gameState.books hbooknd,
      updateFirst_eq_map_of_nodup Book.currentHolderId player.id _ room.gameState.books hbooknd]
    exact ⟨rfl, rfl, rfl, rfl⟩

/-- C6, witness: in the two player game, a submit from an unknown socket is
a no-op, and a successful drawing submission by Alice appends her page to
her held book and credits her in the submitted list. -/
theorem c6_submit_preconditions_witness :
    submitDrawing gameTwo "sZ" "img" 9 = gameTwo ∧
    (submitDrawingCore gameTwo "sA" "img" 9).map (fun r => r.gameState.submittedPlayerIds)
      = some (gameTwo.gameState.submittedPlayerIds ++ [pAlice.id]) := by
  have h := c6_submit_preconditions gameTwo "sZ" "img" "guess" 9 (by decide)
  have h2 := c6_submit_preconditions gameTwo "sA" "img" "guess" 9 (by decide)
  exact ⟨(h.2.1 (by decide)).1,
    (h2.2.2.2.2 pAlice bookAliceTwo (by decide) (by decide) (by decide) (by decide)).2.1⟩

/-- C7, amended claim. The un-submit round trip holds for drawing and guess
submissions that do not complete the turn: un-submit right after the
submission restores the room exactly (page popped, identity removed from
the submitted set). Un-submit is a no-op when the identity is not in the
submitted set, and after a submission credit that appended no page (the
skip round acknowledgement), un-submit leaves the books unchanged only
when the last page of the held book is not authored by the requesting
identity — when the held book ends with a page of that identity, such as
the seed page of the own book on turn 0, that page is popped (see the
counterexample). -/
theorem c7_unsubmit_roundtrip_amended (room : Room) (sid d g : String) (now : Nat)
    (player : Player) (b : Book)
    (hst : room.gameState.status = Status.PLAYING)
    (hfind : room.players.find? (fun p => p.socketId == sid) = some player)
    (hcont : room.gameState.submittedPlayerIds.contains player.id = false)
    (hbfind : room.gameState.books.find? (fun bk => bk.currentHolderId == player.id) = some b)
    (hbooknd : (room.gameState.books.map Book.currentHolderId).Nodup)
    (hnotfull : room.gameState.submittedPlayerIds.length + 1 ≠ room.players.length) :
    unsubmit (submitDrawing room sid d now) sid = room ∧
    unsubmit (submitGuess room sid g now) sid = room ∧
    unsubmit room sid = room ∧
    ((∀ bk ∈ room.gameState.books, bk.currentHolderId = player.id →
        ∀ lp, bk.pages.getLast? = some lp → lp.playerId ≠ player.id) →
      (unsubmit { room with gameState := { room.gameState with
          submittedPlayerIds := room.gameState.submittedPlayerIds ++ [player.id] } } sid
        ).gameState.books = room.gameState.books) := by
  have hmem : player.id ∉ room.gameState.submittedPlayerIds := by simpa using hcont
  refine ⟨?_, ?_, ?_, ?_⟩
  · have hcore := submitDrawingCore_success room sid d now player hst hfind hcont b hbfind
    have hsub : submitDrawing room sid d now = { room with gameState := { room.gameState with
        books := updateFirst (fun bk => bk.currentHolderId == player.id)
          (fun bk => { bk with pages := bk.pages ++
            [(⟨.draw, player.id, player.name, d, now, none⟩ : Page)] }) room.gameState.books,
        submittedPlayerIds := room.gameState.submittedPlayerIds ++ [player.id] } } := by
      unfold submitDrawing
      rw [hcore]
      dsimp only
      rw [if_neg ?_]
      show ¬ submittedCountCheck _ = true
      simp only [submittedCountCheck]
      simp only [List.length_append, List.length_cons, List.length_nil, beq_iff_eq]
      simpa using hnotfull
    rw [hsub]
    exact unsubmit_append_roundtrip room sid player _ hst hfind hmem hbooknd rfl
  · have hcore := submitGuessCore_success room sid g now player hst hfind hcont b hbfind
    have hsub : submitGuess room sid g now = { room with gameState := { room.gameState with
        books := updateFirst (fun bk => bk.currentHolderId == player.id)
          (fun bk => { bk with pages := bk.pages ++
            [(⟨.guess, player.id, player.name, g.trim, now, none⟩ : Page)] }) room.gameState.books,
        submittedPlayerIds := room.gameState.submittedPlayerIds ++ [player.id] } } := by
      unfold submitGuess
      rw [hcore]
      dsimp only
      rw [if_neg ?_]
      show ¬ submittedCountCheck _ = true
      simp only [submittedCountCheck]
      simp only [List.length_append, List.length_cons, List.length_nil, beq_iff_eq]
      simpa using hnotfull
    rw [hsub]
    exact unsubmit_append_roundtrip room sid player _ hst hfind hmem hbooknd rfl
  · unfold unsubmit
    dsimp only
    rw [if_neg (by simp [hst]), hfind]
    dsimp only
    rw [if_neg (by simpa using hcont)]
  · intro hnopop
    exact unsubmit_no_pop room sid player hst hfind hbooknd hnopop

/-- C7, witness: in the two player game at turn 0, Alice submits a drawing
and immediately un-submits; the room is restored exactly, and un-submit on
the untouched room is a no-op. -/
theorem c7_unsubmit_roundtrip_amended_witness :
    unsubmit (submitDrawing gameTwo "sA" "img" 9) "sA" = gameTwo ∧
    unsubmit gameTwo "sA" = gameTwo := by
  have h := c7_unsubmit_roundtrip_amended gameTwo "sA" "img" "guess" 9 pAlice bookAliceTwo
    (by decide) (by decide) (by decide) (by decide) (by decide) (by decide)
  exact ⟨h.1, h.2.2.1⟩

/-- C10, witness: a one room store in playing status; the response carries
both books with their secret words regardless of the asking socket. -/
theorem c10_get_room_unfiltered_witness :
    getRoomResponse [("R2", gameTwo)] "sB" "R2" = some gameTwo ∧
    getRoomResponse [("R2", gameTwo)] "sZ" "R2" = getRoomResponse [("R2", gameTwo)] "sB" "R2" ∧
    (getRoomResponse [("R2", gameTwo)] "sB" "R2").map (fun r => r.gameState.books)
      = some gameTwo.gameState.books := by
  have h := c10_get_room_unfiltered [("R2", gameTwo)] "sB" "sZ" "R2" ("R2", gameTwo) (by decide)
  exact h

end DrawNGuess
